import Mathlib

/-!
# SoulSync — formal verification of the sync engine specification

A shallow embedding, in Lean 4, of the parts of the SoulSync music-library
synchronization engine (`src/core/soulseek_client.py`,
`src/core/jellyfin_client.py`, `src/services/sync_service.py`,
`src/database/music_database.py`) that the specification claims C1..C10 talk
about, together with theorems settling each claim.

Modelling conventions:
* Python floats are modelled as exact rationals (`ℚ`); machine floating point
  rounding is not in the scope of any claim.
* Python strings are modelled as Lean `String`; character-class predicates
  (`isalnum`, `isspace`, hex digits) are modelled over their ASCII meaning.
* External collaborators (the slskd HTTP daemon, the media-server HTTP API,
  the SQLite file, the filesystem, wall-clock time) are modelled as explicit
  environment parameters supplied to the embedded functions.
* Python exceptions are modelled with `Option`/`Except`; an uncaught exception
  is an `Except.error` value.
-/

namespace SoulSync

/-! ## Python string primitives -/

/-- ASCII whitespace, as recognised by Python `str.strip` / `int` parsing
(Unicode-only whitespace code points are outside the scope of the claims). -/
def pyIsSpace (c : Char) : Bool :=
  c = ' ' || c = '\t' || c = '\n' || c = '\r' || c = '\x0b' || c = '\x0c'

/-- `str.strip()` on a character list: drop whitespace from both ends. -/
def pyStripChars (l : List Char) : List Char :=
  ((l.dropWhile pyIsSpace).reverse.dropWhile pyIsSpace).reverse

/-- Python `str.strip()`. -/
def pyStrip (s : String) : String :=
  (pyStripChars s.data).asString

/-- Python `str.lower()` over its ASCII meaning (`Char.toLower` lowercases
ASCII letters; Unicode-only case mappings are outside the claims). -/
def pyLower (s : String) : String :=
  (s.data.map Char.toLower).asString

/-- ASCII hexadecimal digit. -/
def pyIsHexDigit (c : Char) : Bool :=
  ('0' ≤ c && c ≤ '9') || ('a' ≤ c && c ≤ 'f') || ('A' ≤ c && c ≤ 'F')

/-- Body of a hexadecimal literal after the first digit: further digits with
single underscores allowed strictly between digits (CPython `int` grammar). -/
def hexRest : List Char → Bool
  | [] => true
  | '_' :: c :: cs => pyIsHexDigit c && hexRest cs
  | '_' :: [] => false
  | c :: cs => pyIsHexDigit c && hexRest cs

/-- Nonempty hexadecimal digit run with single underscores between digits. -/
def hexBody : List Char → Bool
  | [] => false
  | c :: cs => pyIsHexDigit c && hexRest cs

/-- Acceptance of CPython `int(s, 16)`: surrounding whitespace, an optional
sign, an optional `0x`/`0X` prefix (an underscore may follow the prefix), then
hex digits with single underscores between digits. -/
def pyIntHexAccepts (s : String) : Bool :=
  let t := pyStripChars s.data
  let t1 : List Char :=
    match t with
    | '+' :: r => r
    | '-' :: r => r
    | r => r
  match t1 with
  | '0' :: 'x' :: r | '0' :: 'X' :: r =>
      (match r with
       | '_' :: rs => hexBody rs
       | _ => hexBody r)
  | r => hexBody r

/-! ## C9 — `jellyfin_client._is_valid_guid` and id filtering -/

/-- `str.replace('-', '')`. -/
def removeHyphens (s : String) : String :=
  (s.data.filter (fun c => c ≠ '-')).asString

/-- Embeds `JellyfinClient._is_valid_guid` (src/core/jellyfin_client.py
lines 1024-1047): reject empty; strip; require length 32 or 36; drop hyphens;
require exactly 32 remaining characters accepted by `int(·, 16)`. -/
def isValidGuid (guid : String) : Bool :=
  if guid = "" then false
  else
    let g := pyStrip guid
    if g.length = 32 || g.length = 36 then
      let gh := removeHyphens g
      if gh.length = 32 then pyIntHexAccepts gh else false
    else false

/-- A track object as seen by `create_playlist`: it may carry a `ratingKey`
attribute, an `id` attribute, both, or neither. -/
structure PlaylistTrackObj where
  ratingKey : Option String
  id : Option String

/-- The id `create_playlist` extracts from a track: `ratingKey` if present,
else `id` (src/core/jellyfin_client.py lines 961-966). -/
def trackIdOf (t : PlaylistTrackObj) : Option String :=
  match t.ratingKey with
  | some r => some r
  | none => t.id

/-- The id-validation loop of `JellyfinClient.create_playlist`
(src/core/jellyfin_client.py lines 957-977): collect the stripped valid ids
in order, and count the tracks whose id is missing, empty or invalid. -/
def collectTrackIds : List PlaylistTrackObj → List String × Nat
  | [] => ([], 0)
  | t :: ts =>
    let rest := collectTrackIds ts
    match trackIdOf t with
    | some s =>
        if s ≠ "" && isValidGuid s then (pyStrip s :: rest.1, rest.2)
        else (rest.1, rest.2 + 1)
    | none => (rest.1, rest.2 + 1)

/-- The validity predicate exactly as claim C9 words it: removing the hyphens
leaves exactly 32 hexadecimal characters, regardless of how many hyphens the
string contains. (Stated from the claim, for comparison with `isValidGuid`.) -/
def claimC9ValidId (s : String) : Bool :=
  (removeHyphens s).length = 32 && (removeHyphens s).data.all pyIsHexDigit

/-! ## C8 — `music_database._calculate_album_confidence`

`_string_similarity`, `_clean_album_title_for_comparison` and
`_normalize_for_comparison` delegate to the external matching engine /
`unidecode` when those are importable, so the embedding takes the similarity
and cleaning functions as parameters; the claim is about the arithmetic of
`_calculate_album_confidence` on top of them. -/

/-- The fields of a catalog album row that `_calculate_album_confidence`
reads (`DatabaseAlbum` in src/database/music_database.py). -/
structure DatabaseAlbum where
  title : String
  artistName : String
  trackCount : Option ℤ

/-- Embeds `MusicDatabase._calculate_album_confidence`
(src/database/music_database.py lines 1912-1962). `sim` stands for
`_string_similarity`, `cleanTitle` for `_clean_album_title_for_comparison`,
`normalize` for `_normalize_for_comparison`. Python truthiness of
`expected_track_count and db_album.track_count` is `some` and nonzero. -/
def calculateAlbumConfidence (sim : String → String → ℚ)
    (cleanTitle normalize : String → String)
    (searchTitle searchArtist : String) (album : DatabaseAlbum)
    (expectedTrackCount : Option ℤ) : ℚ :=
  let titleSimilarity := sim (pyLower searchTitle) (pyLower album.title)
  let artistSimilarity := sim (pyLower searchArtist) (pyLower album.artistName)
  let cleanTitleSimilarity := sim (cleanTitle searchTitle) (cleanTitle album.title)
  let normalizedTitleSimilarity := sim (normalize searchTitle) (normalize album.title)
  let bestTitleSimilarity :=
    max titleSimilarity (max cleanTitleSimilarity normalizedTitleSimilarity)
  let confidence := bestTitleSimilarity * 0.5 + artistSimilarity * 0.5
  let confidence := if artistSimilarity < 0.6 then confidence * 0.3 else confidence
  let confidence :=
    match expectedTrackCount, album.trackCount with
    | some e, some c =>
      if e ≠ 0 ∧ c ≠ 0 ∧ cleanTitleSimilarity ≥ 0.8 then
        if c ≥ e then confidence + min 0.15 (((c : ℚ) - (e : ℚ)) / (e : ℚ) * 0.1)
        else if (c : ℚ) < (e : ℚ) * 0.8 then confidence - 0.1
        else confidence
      else confidence
    | _, _ => confidence
  min confidence 1

/-! ## Search results (`soulseek_client.TrackResult`) and the quality score -/

/-- The `TrackResult` dataclass of src/core/soulseek_client.py (fields of
`SearchResult` plus the parsed metadata fields). -/
structure TrackResult where
  username : String
  filename : String
  size : ℤ
  bitrate : Option ℤ
  duration : Option ℤ
  quality : String
  freeUploadSlots : ℤ
  uploadSpeed : ℤ
  queueLength : ℤ
  artist : Option String := none
  title : Option String := none
  album : Option String := none
  trackNumber : Option ℤ := none
  deriving DecidableEq

/-- `quality_weights.get(quality.lower(), 0.3)`. -/
def qualityWeight (q : String) : ℚ :=
  if q = "flac" then 1.0
  else if q = "mp3" then 0.8
  else if q = "ogg" then 0.7
  else if q = "aac" then 0.6
  else if q = "wma" then 0.5
  else 0.3

/-- Embeds the `SearchResult.quality_score` property
(src/core/soulseek_client.py lines 29-58).  `if self.bitrate:` is Python
truthiness: present and nonzero. -/
def qualityScore (t : TrackResult) : ℚ :=
  let base := qualityWeight (pyLower t.quality)
  let base :=
    match t.bitrate with
    | some b =>
      if b ≠ 0 then
        if b ≥ 320 then base + 0.2
        else if b ≥ 256 then base + 0.1
        else if b < 128 then base - 0.2
        else base
      else base
    | none => base
  let base := if t.freeUploadSlots > 0 then base + 0.1 else base
  let base := if t.uploadSpeed > 100 then base + 0.05 else base
  let base := if t.queueLength > 10 then base - 0.1 else base
  min base 1.0

/-! ## Stable sorting (Python `list.sort`)

Python `list.sort` is a stable sort; `sort(key=k, reverse=True)` yields the
stable descending order (ties keep their original relative order).  The
unique stable order is obtained by insertion sort with the corresponding
non-strict comparison, which is how we model it (and which evaluates in the
kernel, unlike `List.mergeSort`). -/

/-- Insert `a` before the first element `b` with `le a b`. -/
def orderedInsertB (le : α → α → Bool) (a : α) : List α → List α
  | [] => [a]
  | b :: l => if le a b then a :: b :: l else b :: orderedInsertB le a l

/-- Stable sort with respect to the non-strict comparison `le`. -/
def stableSortB (le : α → α → Bool) : List α → List α
  | [] => []
  | a :: l => orderedInsertB le a (stableSortB le l)

/-- Python string comparison: lexicographic on code points. -/
def pyStrLtChars : List Char → List Char → Bool
  | [], [] => false
  | [], _ :: _ => true
  | _ :: _, [] => false
  | a :: as, b :: bs => if a < b then true else if b < a then false else pyStrLtChars as bs

/-- The descending comparison used by
`bucket.sort(key=lambda x: (x.quality_score, x.size), reverse=True)`:
`a` may come before `b` iff the key of `a` is lexicographically ≥ that of `b`. -/
def qualitySizeDescLe (a b : TrackResult) : Bool :=
  decide (qualityScore b < qualityScore a ∨
    (qualityScore b = qualityScore a ∧ b.size ≤ a.size))

/-- One bucket sort of the quality filter. -/
def sortBucket (l : List TrackResult) : List TrackResult :=
  stableSortB qualitySizeDescLe l

/-! ## C2 — `soulseek_client.filter_results_by_quality_preference` -/

/-- One entry of the `qualities` map of the quality profile JSON, with the
defaults the code applies via `.get` (`enabled=False`, `min_mb=0`,
`max_mb=999`, `priority=999`) expressible as field values. -/
structure QualityConfig where
  enabled : Bool
  minMb : ℚ
  maxMb : ℚ
  priority : ℤ
  deriving DecidableEq

/-- A quality profile as returned by `MusicDatabase.get_quality_profile`:
the five tiers in their dictionary insertion order plus `fallback_enabled`. -/
structure QualityProfile where
  flac : QualityConfig
  mp3_320 : QualityConfig
  mp3_256 : QualityConfig
  mp3_192 : QualityConfig
  other : QualityConfig
  fallbackEnabled : Bool
  deriving DecidableEq

/-- The five per-tier candidate buckets. -/
structure QualityBuckets where
  flac : List TrackResult
  mp3_320 : List TrackResult
  mp3_256 : List TrackResult
  mp3_192 : List TrackResult
  other : List TrackResult
  deriving DecidableEq

/-- `quality_buckets.get(quality_name, [])`. -/
def bucketFor (b : QualityBuckets) (name : String) : List TrackResult :=
  if name = "flac" then b.flac
  else if name = "mp3_320" then b.mp3_320
  else if name = "mp3_256" then b.mp3_256
  else if name = "mp3_192" then b.mp3_192
  else if name = "other" then b.other
  else []

/-- `file_size_mb = candidate.size / (1024 * 1024)`. -/
def fileSizeMb (c : TrackResult) : ℚ :=
  (c.size : ℚ) / (1024 * 1024)

/-- The size-window check `min_mb <= file_size_mb <= max_mb`. -/
def sizeWithin (cfg : QualityConfig) (c : TrackResult) : Prop :=
  cfg.minMb ≤ fileSizeMb c ∧ fileSizeMb c ≤ cfg.maxMb

instance (cfg : QualityConfig) (c : TrackResult) : Decidable (sizeWithin cfg c) := by
  unfold sizeWithin; infer_instance

/-- The body of the candidate-categorisation loop of
`filter_results_by_quality_preference` (src/core/soulseek_client.py lines
1379-1430) for a single candidate: update the buckets and the
`size_filtered_all` fallback list.  A candidate whose format is neither flac
nor mp3 (or an mp3 under 192 kbps, or an empty quality) goes to the `other`
bucket without any size check. -/
def categorize (p : QualityProfile) (acc : QualityBuckets × List TrackResult)
    (c : TrackResult) : QualityBuckets × List TrackResult :=
  let b := acc.1
  let sizeAll := acc.2
  if c.quality = "" then ({ b with other := b.other ++ [c] }, sizeAll)
  else
    let fmt := pyLower c.quality
    let bitrate := c.bitrate.getD 0
    if fmt = "flac" then
      if sizeWithin p.flac c then
        ((if p.flac.enabled then { b with flac := b.flac ++ [c] } else b),
          sizeAll ++ [c])
      else (b, sizeAll)
    else if fmt = "mp3" then
      if bitrate ≥ 320 then
        if sizeWithin p.mp3_320 c then
          ((if p.mp3_320.enabled then { b with mp3_320 := b.mp3_320 ++ [c] } else b),
            sizeAll ++ [c])
        else (b, sizeAll)
      else if bitrate ≥ 256 then
        if sizeWithin p.mp3_256 c then
          ((if p.mp3_256.enabled then { b with mp3_256 := b.mp3_256 ++ [c] } else b),
            sizeAll ++ [c])
        else (b, sizeAll)
      else if bitrate ≥ 192 then
        if sizeWithin p.mp3_192 c then
          ((if p.mp3_192.enabled then { b with mp3_192 := b.mp3_192 ++ [c] } else b),
            sizeAll ++ [c])
        else (b, sizeAll)
      else ({ b with other := b.other ++ [c] }, sizeAll)
    else ({ b with other := b.other ++ [c] }, sizeAll)

/-- The categorisation loop over the whole candidate list. -/
def buildBuckets (p : QualityProfile) (results : List TrackResult) :
    QualityBuckets × List TrackResult :=
  results.foldl (categorize p) (⟨[], [], [], [], []⟩, [])

/-- `[(cfg.priority, name) for (name, cfg) in profile.qualities if enabled]`
in the dictionary insertion order of the profile. -/
def enabledPriorities (p : QualityProfile) : List (ℤ × String) :=
  (([("flac", p.flac), ("mp3_320", p.mp3_320), ("mp3_256", p.mp3_256),
     ("mp3_192", p.mp3_192), ("other", p.other)].filter
      (fun x => x.2.enabled)).map (fun x => (x.2.priority, x.1)))

/-- Python ascending tuple comparison for `quality_priorities.sort()`:
by priority, ties broken by the tier-name string. -/
def priorityTupleLe (a b : ℤ × String) : Bool :=
  if a.1 < b.1 then true
  else if b.1 < a.1 then false
  else a.2 = b.2 || pyStrLtChars a.2.data b.2.data

/-- The waterfall walk: the first priority whose bucket is non-empty wins. -/
def waterfall (b : QualityBuckets) : List (ℤ × String) → Option (List TrackResult)
  | [] => none
  | (_, name) :: rest =>
    if bucketFor b name ≠ [] then some (bucketFor b name) else waterfall b rest

/-- Embeds `SoulseekClient.filter_results_by_quality_preference`
(src/core/soulseek_client.py lines 1350-1474).  The quality profile, read
from the catalog database at the top of the function, is a parameter. -/
def filterResultsByQualityPreference (p : QualityProfile)
    (results : List TrackResult) : List TrackResult :=
  if results = [] then []
  else
    let bk := buildBuckets p results
    let sorted : QualityBuckets :=
      ⟨sortBucket bk.1.flac, sortBucket bk.1.mp3_320, sortBucket bk.1.mp3_256,
       sortBucket bk.1.mp3_192, sortBucket bk.1.other⟩
    let priorities := stableSortB priorityTupleLe (enabledPriorities p)
    match waterfall sorted priorities with
    | some cands => cands
    | none =>
      if p.fallbackEnabled then
        if bk.2 ≠ [] then sortBucket bk.2 else []
      else []

/-- A quality profile with only the `other` tier enabled (bounds 10-20 MB)
and fallback disabled, used to exhibit the missing size check. -/
def profileOtherOnly : QualityProfile :=
  ⟨⟨false, 0, 999, 5⟩, ⟨false, 0, 999, 5⟩, ⟨false, 0, 999, 5⟩, ⟨false, 0, 999, 5⟩,
   ⟨true, 10, 20, 1⟩, false⟩

/-- A 1 MB ogg candidate: it lands in the `other` bucket with no size check. -/
def oggCandidate : TrackResult :=
  { username := "u", filename := "a.ogg", size := 1048576, bitrate := none,
    duration := none, quality := "ogg", freeUploadSlots := 0, uploadSpeed := 0,
    queueLength := 0 }

/-! ## C4 — `soulseek_client.search_and_download_best` -/

/-- The Python exceptions the embedding distinguishes. -/
inductive PyErr where
  | attributeError (msg : String)
  | valueError (msg : String)
  deriving DecidableEq

/-- The `AlbumResult` dataclass of src/core/soulseek_client.py (the
`album_title`, `artist` and `year` fields — cosmetic string extractions from
the directory name that no claim mentions — are omitted from the model). -/
structure AlbumResult where
  username : String
  albumPath : String
  trackCount : Nat
  totalSize : ℤ
  tracks : List TrackResult
  dominantQuality : String
  freeUploadSlots : ℤ
  uploadSpeed : ℤ
  queueLength : ℤ
  deriving DecidableEq

/-- A value reaching the quality filter's candidate loop under Python's
dynamic typing.  When `search_and_download_best` hands the whole
`(tracks, albums)` tuple to the filter, the loop variable ranges over the two
component lists instead of over `TrackResult` objects. -/
inductive PyCandidate where
  | track (t : TrackResult)
  | trackList (l : List TrackResult)
  | albumList (l : List AlbumResult)
  deriving DecidableEq

/-- The first attribute access `candidate.quality` of the filter loop
(src/core/soulseek_client.py line 1380): on a list value it raises
`AttributeError`; processing stops at the first offending candidate. -/
def extractTracks : List PyCandidate → Except PyErr (List TrackResult)
  | [] => .ok []
  | .track t :: cs => (extractTracks cs).map (fun ts => t :: ts)
  | .trackList _ :: _ =>
    .error (.attributeError "list object has no attribute quality")
  | .albumList _ :: _ =>
    .error (.attributeError "list object has no attribute quality")

/-- `filter_results_by_quality_preference` under dynamic typing: empty input
returns `[]`; otherwise the candidate loop raises at the first non-track
candidate, and when every candidate is a `TrackResult` it behaves exactly as
`filterResultsByQualityPreference`. -/
def filterResultsDyn (p : QualityProfile) (results : List PyCandidate) :
    Except PyErr (List TrackResult) :=
  if results = [] then .ok []
  else
    match extractTracks results with
    | .error e => .error e
    | .ok ts => .ok (filterResultsByQualityPreference p ts)

/-- The pair `search` returns: `soulseek_client.search` (lines 656-785)
always returns the tuple `(all_tracks, all_albums)` — every exception inside
it is trapped and turned into `([], [])` — so its outcome is supplied by the
environment. -/
structure SearchOutcome where
  tracks : List TrackResult
  albums : List AlbumResult

/-- Embeds `SoulseekClient.search_and_download_best`
(src/core/soulseek_client.py lines 1316-1336).  `results` is the
`(tracks, albums)` tuple; `if not results:` is never taken because a 2-tuple
is always truthy; the whole tuple — not the track list — is handed to the
quality filter; a nonempty filter output leads to
`download(best.username, best.filename, best.size)`, whose daemon-assigned
id (or filename fallback, or null) is supplied by the environment as
`downloadId`. -/
def searchAndDownloadBest (p : QualityProfile) (searchResult : SearchOutcome)
    (downloadId : TrackResult → Option String) : Except PyErr (Option String) :=
  let resultsTuple : List PyCandidate :=
    [.trackList searchResult.tracks, .albumList searchResult.albums]
  match filterResultsDyn p resultsTuple with
  | .error e => .error e
  | .ok filtered =>
    match filtered with
    | [] => .ok none
    | best :: _ => .ok (downloadId best)

/-! ## C6 — the search rate limiter

`soulseek_client` records search start timestamps in `self.search_timestamps`
(defaults `max_searches_per_window = 35`, `rate_limit_window = 220`).  Wall
clock time is modelled by `ℚ`; `asyncio.sleep` advances the clock by exactly
the requested amount; a trace of searches is given by the nonnegative delays
between one search's recorded start and the next search's arrival. -/

/-- `self.rate_limit_window` (src/core/soulseek_client.py line 217). -/
def rateLimitWindow : ℚ := 220

/-- `self.max_searches_per_window` (src/core/soulseek_client.py line 216). -/
def maxSearchesPerWindow : ℕ := 35

/-- Embeds `SoulseekClient._clean_old_timestamps`
(src/core/soulseek_client.py lines 252-256). -/
def cleanOldTimestamps (now : ℚ) (stamps : List ℚ) : List ℚ :=
  stamps.filter (fun ts => decide (now - rateLimitWindow < ts))

/-- Embeds `SoulseekClient._wait_for_rate_limit`
(src/core/soulseek_client.py lines 258-274) for a search arriving at time
`t`: clean; when the window is full, wait until the oldest timestamp leaves
the window and clean again; record the current time.  Returns the recorded
(proceed) time and the updated timestamp list. -/
def waitForRateLimit (t : ℚ) (stamps : List ℚ) : ℚ × List ℚ :=
  let l1 := cleanOldTimestamps t stamps
  if maxSearchesPerWindow ≤ l1.length then
    let oldest := l1.headD 0
    let waitTime := oldest + rateLimitWindow - t
    if 0 < waitTime then
      (t + waitTime, cleanOldTimestamps (t + waitTime) l1 ++ [t + waitTime])
    else (t, l1 ++ [t])
  else (t, l1 ++ [t])

/-- A sequence of searches driven against the rate limiter: each gap is the
delay from the previous search's recorded start to the next arrival; the
result is the list of recorded start timestamps, in order. -/
def runRateLimiter (now : ℚ) (stamps : List ℚ) : List ℚ → List ℚ
  | [] => []
  | g :: gs =>
    let r := waitForRateLimit (now + g) stamps
    r.1 :: runRateLimiter r.1 r.2 gs

/-- How many of the timestamps in `l` lie inside the sliding window
`(T − rate_limit_window, T]`. -/
def windowCount (T : ℚ) (l : List ℚ) : ℕ :=
  l.countP (fun x => decide (T - rateLimitWindow < x) && decide (x ≤ T))

/-- Any two recorded timestamps 35 apart in order are at least a full window
apart in time. -/
def spaced (h : List ℚ) : Prop :=
  ∀ (i j : ℕ) (hi : i < h.length) (hj : j < h.length),
    i + maxSearchesPerWindow ≤ j →
    h.get ⟨i, hi⟩ + rateLimitWindow ≤ h.get ⟨j, hj⟩

/-! ## C7 — `soulseek_client._process_search_responses` and album grouping -/

/-- One entry of the `files` array of a slskd search response (the fields
`_process_search_responses` reads, with `.get` defaults). -/
structure SlskdFile where
  filename : String
  size : ℤ
  bitRate : Option ℤ
  length : Option ℤ
  deriving DecidableEq

/-- One slskd search response. -/
structure SlskdResponse where
  username : String
  files : List SlskdFile
  freeUploadSlots : ℤ
  uploadSpeed : ℤ
  queueLength : ℤ
  deriving DecidableEq

/-- Python `str.split(sep)` (keeping empty parts). -/
def splitOnChar (sep : Char) : List Char → List (List Char)
  | [] => [[]]
  | c :: cs =>
    match splitOnChar sep cs with
    | [] => [[]]
    | p :: ps => if c = sep then [] :: p :: ps else (c :: p) :: ps

/-- The final path component (`os.path.basename` / `pathlib` name: the text
after the last forward slash; backslashes are not separators on POSIX). -/
def afterLastSlash (l : List Char) : List Char :=
  (splitOnChar '/' l).getLastD []

/-- `pathlib` suffix of a file name: from the last dot, unless the dot is
leading or trailing. -/
def pySuffix (name : List Char) : List Char :=
  match name.reverse.findIdx? (fun c => c = '.') with
  | none => []
  | some j =>
    let i := name.length - 1 - j
    if 0 < i ∧ i < name.length - 1 then name.drop i else []

/-- `Path(filename).suffix.lower().lstrip('.')`
(src/core/soulseek_client.py line 470). -/
def fileExt (filename : String) : String :=
  (((pySuffix (afterLastSlash filename.data)).map Char.toLower).dropWhile
    (fun c => c = '.')).asString

/-- `os.path.splitext(...)[0]`: drop the extension beginning at the last dot,
unless only dots precede it. -/
def pySplitextRoot (name : List Char) : List Char :=
  match name.reverse.findIdx? (fun c => c = '.') with
  | none => name
  | some j =>
    let i := name.length - 1 - j
    if (name.take i).all (fun c => c = '.') then name else name.take i

/-- The numeric value of a digit string. -/
def digitsToInt (ds : List Char) : ℤ :=
  (ds.foldl (fun n c => n * 10 + (c.toNat - '0'.toNat)) 0 : ℕ)

/-- The `track_number` effect of `TrackResult._parse_filename_metadata`
(src/core/soulseek_client.py lines 74-116): across the three filename
patterns, a track number is extracted exactly when the extension-stripped
basename starts with digits followed (after spaces) by one of the separators
dash, dot or en-dash and at least one further character. -/
def parseTrackNumber (basename : List Char) : Option ℤ :=
  let ds := basename.takeWhile Char.isDigit
  if ds = [] then none
  else
    match (basename.drop ds.length).dropWhile pyIsSpace with
    | c :: cs =>
      if (c = '-' ∨ c = '.' ∨ c = '–') ∧ cs ≠ [] then some (digitsToInt ds)
      else none
    | [] => none

/-- Embeds `SoulseekClient._extract_album_path`
(src/core/soulseek_client.py lines 517-538). -/
def extractAlbumPath (filename : String) : Option String :=
  if ¬ filename.data.contains '/' ∧ ¬ filename.data.contains '\\' then none
  else
    let normalized := filename.data.map (fun c => if c = '\\' then '/' else c)
    let parts := splitOnChar '/' normalized
    if parts.length < 2 then none
    else
      let albumDir := parts.getD (parts.length - 2) []
      if albumDir.headD ' ' = '@' ∨ albumDir.length < 2 then none
      else some ((List.intercalate ['/'] parts.dropLast).asString)

/-- `{'.mp3', '.flac', '.ogg', '.aac', '.wma', '.wav', '.m4a'}`. -/
def audioExtensions : List String :=
  [".mp3", ".flac", ".ogg", ".aac", ".wma", ".wav", ".m4a"]

/-- The `TrackResult` constructed for one audio file of a response
(src/core/soulseek_client.py lines 476-493 plus the `track_number` effect of
`__post_init__`; the parsed `artist`/`title`/`album` strings are not
modelled).  `duration` converts truthy seconds to milliseconds. -/
def mkTrackFromFile (username : String) (slots speed queue : ℤ)
    (f : SlskdFile) : TrackResult :=
  { username := username
    filename := f.filename
    size := f.size
    bitrate := f.bitRate
    duration :=
      match f.length with
      | some r => if r ≠ 0 then some (r * 1000) else none
      | none => none
    quality :=
      if fileExt f.filename ∈ (["flac", "mp3", "ogg", "aac", "wma"] : List String)
      then fileExt f.filename else "unknown"
    freeUploadSlots := slots
    uploadSpeed := speed
    queueLength := queue
    trackNumber := parseTrackNumber (pySplitextRoot (afterLastSlash f.filename.data)) }

/-- The `albums_by_path` defaultdict: an association list in insertion order,
appending each track at the end of its group. -/
abbrev Groups : Type := List ((String × String) × List TrackResult)

def addToGroups (key : String × String) (t : TrackResult) :
    Groups → Groups
  | [] => [(key, [t])]
  | (k, ts) :: rest =>
    if k = key then (k, ts ++ [t]) :: rest
    else (k, ts) :: addToGroups key t rest

/-- `albums_by_path[(username, album_path)]` lookup. -/
def lookupGroup (gs : Groups) (key : String × String) : Option (List TrackResult) :=
  (List.find? (fun g => decide (g.1 = key)) gs).map (fun g => g.2)

/-- Processing of one `file_data` entry of a response
(src/core/soulseek_client.py lines 466-500): skip non-audio extensions,
build the `TrackResult`, append it to the flat list, and group it under
`(username, album_path)` when an album path exists. -/
def processOneFile (username : String) (slots speed queue : ℤ)
    (acc : List TrackResult × Groups) (f : SlskdFile) :
    List TrackResult × Groups :=
  if ("." ++ fileExt f.filename) ∈ audioExtensions then
    let track := mkTrackFromFile username slots speed queue f
    let allTracks := acc.1 ++ [track]
    match extractAlbumPath f.filename with
    | some ap => (allTracks, addToGroups (username, ap) track acc.2)
    | none => (allTracks, acc.2)
  else acc

/-- The response/file double loop of `_process_search_responses`. -/
def processResponses (rs : List SlskdResponse) : List TrackResult × Groups :=
  rs.foldl
    (fun acc r =>
      r.files.foldl
        (processOneFile r.username r.freeUploadSlots r.uploadSpeed r.queueLength)
        acc)
    ([], [])

/-- `Counter(qualities).most_common(1)[0][0]`: the most frequent quality;
ties are broken by first occurrence (Counter preserves insertion order and
`most_common` sorts stably). -/
def dominantQuality (tracks : List TrackResult) : String :=
  let quals := tracks.map (fun t => t.quality)
  let count := fun q => quals.countP (fun x => decide (x = q))
  quals.foldl (fun best q => if count best < count q then q else best)
    (quals.headD "")

/-- `sorted(tracks, key=lambda t: t.track_number or 0)` — ascending stable. -/
def sortTracksByNumber (ts : List TrackResult) : List TrackResult :=
  stableSortB (fun a b => decide (a.trackNumber.getD 0 ≤ b.trackNumber.getD 0)) ts

/-- The `AlbumResult` built from one group
(src/core/soulseek_client.py lines 548-585; the cosmetic `album_title`,
`artist` and `year` extractions are not modelled). -/
def mkAlbumResult (username albumPath : String) (tracks : List TrackResult) :
    AlbumResult :=
  let fst := tracks.headD
    { username := "", filename := "", size := 0, bitrate := none,
      duration := none, quality := "", freeUploadSlots := 0, uploadSpeed := 0,
      queueLength := 0 }
  { username := username
    albumPath := albumPath
    trackCount := tracks.length
    totalSize := (tracks.map (fun t => t.size)).sum
    tracks := sortTracksByNumber tracks
    dominantQuality := dominantQuality tracks
    freeUploadSlots := fst.freeUploadSlots
    uploadSpeed := fst.uploadSpeed
    queueLength := fst.queueLength }

/-- Embeds `SoulseekClient._create_album_results`
(src/core/soulseek_client.py lines 541-587): only groups with at least two
tracks become albums. -/
def createAlbumResults (gs : Groups) : List AlbumResult :=
  (gs.filter (fun g => decide (2 ≤ g.2.length))).map
    (fun g => mkAlbumResult g.1.1 g.1.2 g.2)

/-- The filenames of all tracks grouped into albums
(`album_track_filenames`, src/core/soulseek_client.py lines 506-509). -/
def albumTrackFilenames (albums : List AlbumResult) : List String :=
  albums.bind (fun a => a.tracks.map (fun t => t.filename))

/-- Embeds `SoulseekClient._process_search_responses`
(src/core/soulseek_client.py lines 448-515): build all tracks and the album
groups, turn the ≥2 groups into `AlbumResult`s, and keep in the flat track
list only the tracks whose FILENAME is not among the album tracks. -/
def processSearchResponses (rs : List SlskdResponse) :
    List TrackResult × List AlbumResult :=
  let (allTracks, gs) := processResponses rs
  let albums := createAlbumResults gs
  let individual := allTracks.filter
    (fun t => decide (t.filename ∉ albumTrackFilenames albums))
  (individual, albums)

/-- The invariant of the processing loop: group keys are distinct and every
grouped track also appears in the flat track list. -/
def procInv (st : List TrackResult × Groups) : Prop :=
  ((st.2.map (fun g => g.1)).Nodup) ∧ (∀ g ∈ st.2, ∀ x ∈ g.2, x ∈ st.1)

/-- Two files sharing one directory under user alice. -/
def demoFileA1 : SlskdFile := ⟨"music/Album1/01 - a.mp3", 100, none, none⟩

def demoFileA2 : SlskdFile := ⟨"music/Album1/02 - b.mp3", 200, none, none⟩

def demoRespAlice : SlskdResponse := ⟨"alice", [demoFileA1, demoFileA2], 1, 0, 0⟩

/-- Bob shares a single file whose relative path — and hence filename — is
identical to one of alice's album tracks. -/
def demoRespBob : SlskdResponse := ⟨"bob", [demoFileA1], 1, 0, 0⟩

def demoResponses : List SlskdResponse := [demoRespAlice, demoRespBob]

/-- The tracks of alice's two-file group. -/
def demoGroupTracks : List TrackResult :=
  [mkTrackFromFile "alice" 1 0 0 demoFileA1,
   mkTrackFromFile "alice" 1 0 0 demoFileA2]

/-! ## The sync service (`services/sync_service.py`) — claims C1, C3, C5, C10

The media server, the filesystem, the catalog database, the download daemon
and the concurrently flipped cancellation flag are external to the sync
service; they are modelled as environment records of functions. -/

/-- A live track object of the media server (`hasattr(·, 'ratingKey')` is
modelled by `ratingKey.isSome`). -/
structure ServerTrack where
  id : String
  title : String
  ratingKey : Option String
  deriving DecidableEq

/-- The fields of a catalog `DatabaseTrack` the resolver reads. -/
structure DbTrack where
  id : String
  title : String
  deriving DecidableEq

/-- The track objects `_find_track_in_media_server` can return: a live
server object (tier 1, a resolved tier-2 filename, or a Plex fetch), the
tier-2 `FileSystemTrack` placeholder (`is_file_match = True`,
`ratingKey = "fs_<inode>"`), or the `JellyfinTrackFromDB` /
`NavidromeTrackFromDB` wrapper around a catalog row (tier 3). -/
inductive ResolvedTrack where
  | server (t : ServerTrack)
  | fsPlaceholder (ratingKey : String) (title : String) (filePath : String)
  | fromDb (ratingKey : String) (title : String)
  deriving DecidableEq

/-- `is_file_match` is set only on the filesystem placeholder. -/
def ResolvedTrack.isFileMatch : ResolvedTrack → Bool
  | .fsPlaceholder _ _ _ => true
  | _ => false

/-- `hasattr(track, 'ratingKey')` for the playlist-validation step. -/
def ResolvedTrack.hasRatingKey : ResolvedTrack → Bool
  | .server t => t.ratingKey.isSome
  | _ => true

/-- A filesystem entry visited by the `rglob` walk. -/
structure FSFile where
  name : String
  isFile : Bool
  inode : ℕ
  pathStr : String
  deriving DecidableEq

/-- A Spotify track as the sync service consumes it (artists that arrive as
dicts are modelled by their extracted name string). -/
structure SpotifyTrack where
  id : String
  name : String
  artists : List String
  deriving DecidableEq

structure SpotifyPlaylist where
  id : String
  name : String
  tracks : List SpotifyTrack
  deriving DecidableEq

/-- The external world `_find_track_in_media_server` interacts with:
the active media client and its capabilities, the transfer directory (the
`rglob` traversal order per artist loop iteration is supplied as `fsWalk`),
the catalog database (`checkTrackExists` stands for
`MusicDatabase.check_track_exists`), the Plex `fetchItem` call, and the
value of the cancellation flag during this resolution. -/
structure MediaEnv where
  serverType : String
  clientPresent : Bool
  supportsMetadataSearch : Bool
  metadataSearch : String → String → Option ServerTrack
  isConnected : Bool
  transferDirExists : Bool
  hasGetTrackByFilename : Bool
  getTrackByFilename : String → Option ServerTrack
  fsWalk : String → List FSFile
  checkTrackExists : String → String → ℚ → String → Option DbTrack × ℚ
  fetchItem : ℤ → Except PyErr (Option ServerTrack)
  cancelled : Bool

/-- `"".join(c for c in s if c.isalnum() or c in " -_")` (ASCII `isalnum`). -/
def pySafeChars (s : String) : List Char :=
  s.data.filter (fun c => c.isAlphanum || c = ' ' || c = '-' || c = '_')

/-- The artist loop of `_check_jellyfin_api` (src/services/sync_service.py
lines 466-484): a cancellation observation aborts the API probe (returning a
tier-1 miss), the first artist with a metadata hit wins. -/
def jellyfinApiLoop (env : MediaEnv) (title : String) :
    List String → Option ServerTrack
  | [] => none
  | artist :: rest =>
    if env.cancelled then none
    else
      match env.metadataSearch title artist with
      | some m => some m
      | none => jellyfinApiLoop env title rest

/-- Embeds `PlaylistSyncService._check_jellyfin_api`
(src/services/sync_service.py lines 457-487). -/
def checkJellyfinApi (env : MediaEnv) (track : SpotifyTrack) : Option ServerTrack :=
  if ¬ env.supportsMetadataSearch then none
  else jellyfinApiLoop env track.name track.artists

/-- Tier 1 runs only for the jellyfin server type with a present client
(src/services/sync_service.py lines 359-362). -/
def tier1Probe (env : MediaEnv) (track : SpotifyTrack) : Option ServerTrack :=
  if env.serverType = "jellyfin" ∧ env.clientPresent = true then
    checkJellyfinApi env track
  else none

/-- The audio extensions of `_check_filesystem`
(src/services/sync_service.py line 519). -/
def fsExtensions : List String := [".mp3", ".flac", ".m4a", ".wav", ".opus", ".ogg"]

/-- Python substring test (`needle in haystack`) on character lists. -/
def containsSub (needle : List Char) : List Char → Bool
  | [] => needle.isEmpty
  | c :: cs => needle.isPrefixOf (c :: cs) || containsSub needle cs

/-- The per-file hit test of the filesystem walk: a regular file with an
audio extension whose lower-cased name contains the sanitised title. -/
def fsHit (safeTitle : String) (f : FSFile) : Bool :=
  f.isFile &&
    decide ((((pySuffix f.name.data).map Char.toLower).asString) ∈ fsExtensions) &&
    containsSub safeTitle.data (f.name.data.map Char.toLower)

/-- The inner walk of `_check_filesystem` (src/services/sync_service.py
lines 538-565): at the first hit, try `get_track_by_filename` and return the
resolved server track, else the `FileSystemTrack` placeholder. -/
def scanFiles (env : MediaEnv) (trackName safeTitle : String) :
    List FSFile → Option ResolvedTrack
  | [] => none
  | f :: fs =>
    if fsHit safeTitle f then
      if env.clientPresent = true ∧ env.hasGetTrackByFilename = true then
        match env.getTrackByFilename f.name with
        | some jt => some (.server jt)
        | none =>
          some (.fsPlaceholder ("fs_" ++ toString f.inode) trackName f.pathStr)
      else some (.fsPlaceholder ("fs_" ++ toString f.inode) trackName f.pathStr)
    else scanFiles env trackName safeTitle fs

/-- The artist loop of `_check_filesystem` (lines 522-536): artists whose
sanitised name is empty are skipped; for each artist the walk over its
search roots is the environment-supplied `fsWalk`. -/
def fsArtistLoop (env : MediaEnv) (trackName safeTitle : String) :
    List String → Option ResolvedTrack
  | [] => none
  | artist :: rest =>
    let safeArtist := pyStrip (pySafeChars artist).asString
    if safeArtist = "" then fsArtistLoop env trackName safeTitle rest
    else
      match scanFiles env trackName safeTitle (env.fsWalk artist) with
      | some r => some r
      | none => fsArtistLoop env trackName safeTitle rest

/-- Embeds `PlaylistSyncService._check_filesystem`
(src/services/sync_service.py lines 489-574). -/
def checkFilesystem (env : MediaEnv) (track : SpotifyTrack) : Option ResolvedTrack :=
  if ¬ env.transferDirExists then none
  else
    let safeTitle := ((pySafeChars track.name).map Char.toLower).asString
    if safeTitle.length < 3 then none
    else fsArtistLoop env track.name safeTitle track.artists

/-- Decimal-digit run with single underscores between digits. -/
def decRest : List Char → Bool
  | [] => true
  | '_' :: c :: cs => c.isDigit && decRest cs
  | '_' :: [] => false
  | c :: cs => c.isDigit && decRest cs

def decBody : List Char → Bool
  | [] => false
  | c :: cs => c.isDigit && decRest cs

/-- Acceptance and value of CPython `int(s)` (base 10):  surrounding
whitespace, optional sign, digits with single underscores between digits. -/
def pyParseInt (s : String) : Option ℤ :=
  let t := pyStripChars s.data
  let signAndRest : ℤ × List Char :=
    match t with
    | '+' :: r => (1, r)
    | '-' :: r => (-1, r)
    | r => (1, r)
  if decBody signAndRest.2 then
    some (signAndRest.1 * digitsToInt (signAndRest.2.filter (fun c => c ≠ '_')))
  else none

/-- The tier-3 artist loop of `_find_track_in_media_server`
(src/services/sync_service.py lines 384-448): per artist, observe the
cancellation flag, ask the catalog, and on a confident hit wrap the row
(jellyfin/navidrome) or fetch the live Plex item — any fetch failure,
unparsable id or missing `ratingKey` moves on to the next artist. -/
def dbLoop (env : MediaEnv) (title : String) :
    List String → Option ResolvedTrack × ℚ
  | [] => (none, 0)
  | artist :: rest =>
    if env.cancelled then (none, 0)
    else
      let r := env.checkTrackExists title artist 0.7 env.serverType
      match r.1 with
      | some dbt =>
        if r.2 ≥ 0.7 then
          if env.serverType = "jellyfin" then (some (.fromDb dbt.id dbt.title), r.2)
          else if env.serverType = "navidrome" then
            (some (.fromDb dbt.id dbt.title), r.2)
          else
            match pyParseInt dbt.id with
            | none => dbLoop env title rest
            | some n =>
              match env.fetchItem n with
              | .error _ => dbLoop env title rest
              | .ok none => dbLoop env title rest
              | .ok (some pt) =>
                if pt.ratingKey.isSome then (some (.server pt), r.2)
                else dbLoop env title rest
        else dbLoop env title rest
      | none => dbLoop env title rest

/-- Embeds `PlaylistSyncService._find_track_in_media_server`
(src/services/sync_service.py lines 346-455): tier 1 (jellyfin metadata
search, confidence 1.0), tier 2 (filesystem, confidence 0.95 whether or not
the filename resolved to a live id), tier 3 (catalog at threshold 0.7 with
its confidence), else `(None, 0.0)` — also when the client is missing or
disconnected. -/
def findTrackInMediaServer (env : MediaEnv) (track : SpotifyTrack) :
    Option ResolvedTrack × ℚ :=
  match tier1Probe env track with
  | some m => (some (.server m), 1.0)
  | none =>
    match checkFilesystem env track with
    | some f => (some f, 0.95)
    | none =>
      if ¬ env.clientPresent ∨ ¬ env.isConnected then (none, 0.0)
      else dbLoop env track.name track.artists

/-- The mutable attributes of `PlaylistSyncService` the claims mention:
`progress_callbacks` (modelled by the set of playlist names that currently
have one), `syncing_playlists` and the `_cancelled` flag. -/
structure ServiceState where
  progressCallbacks : List String
  syncingPlaylists : List String
  cancelled : Bool
  deriving DecidableEq

/-- Embeds `PlaylistSyncService.cancel_sync` (src/services/sync_service.py
lines 101-105).  The method sets `self._cancelled = True` and then assigns
`self.is_syncing = False`; `is_syncing` is a read-only `@property` (lines
82-85) with no setter, so under Python semantics the assignment raises
`AttributeError` — after the flag has been set. -/
def cancelSync (st : ServiceState) : ServiceState × Option PyErr :=
  ({ st with cancelled := true },
   some (.attributeError
     "property is_syncing of PlaylistSyncService object has no setter"))

/-- The `SyncResult` dataclass (src/services/sync_service.py lines 18-34;
`sync_time`, a wall-clock instant, is not modelled). -/
structure SyncResult where
  playlistName : String
  totalTracks : ℤ
  matchedTracks : ℤ
  syncedTracks : ℤ
  downloadedTracks : ℤ
  failedTracks : ℤ
  errors : List String
  wishlistAddedCount : ℤ
  deriving DecidableEq

/-- `PlaylistSyncService._create_error_result` (lines 640-651). -/
def createErrorResult (name : String) (errors : List String) : SyncResult :=
  { playlistName := name, totalTracks := 0, matchedTracks := 0,
    syncedTracks := 0, downloadedTracks := 0, failedTracks := 0,
    errors := errors, wishlistAddedCount := 0 }

/-- The externally visible operations a sync performs, recorded so that
"no pipeline step ran" is expressible. -/
inductive SyncEffect where
  | progress (step : String)
  | findTrack (trackName : String)
  | download (query : String)
  | updatePlaylist (playlistName : String)
  deriving DecidableEq

/-- The environment of one `sync_playlist` run: the media world for the
resolver, the value the shared `_cancelled` flag shows at the k-th read
(concurrent `cancel_sync` calls may flip it at any time), the media client's
`update_playlist` (which may raise), the external matching engine's
`generate_download_query`, the soulseek client's `search_and_download_best`
(whose exceptions `_download_missing_tracks` traps per track), and the
wishlist service's per-track success. -/
structure SyncEnv where
  media : MediaEnv
  flagAt : ℕ → Bool
  updatePlaylist : String → List ResolvedTrack → Except PyErr Bool
  generateQuery : SpotifyTrack → String
  searchAndDownloadBest : String → Except PyErr (Option String)
  wishlistAdd : SpotifyTrack → Bool

/-- Modelled from the spec: `MatchResult.is_match` comes from the external
matching-engine module (`core/matching_engine.py`, not under src); per §4.6
and the resolver contract, a track counts as matched exactly when the
three-tier resolver returned a track object (`match_type` is
"robust_search" iff a track was found, "no_match" otherwise). -/
def isMatchResult (r : SpotifyTrack × (Option ResolvedTrack × ℚ)) : Bool :=
  r.2.1.isSome

/-- The per-track matching loop (src/services/sync_service.py lines
167-194): each iteration first observes the cancellation flag (aborting with
the cancelled result), reports progress, then resolves the track.  Returns
`none` on a cancellation observation, threading the flag-read counter and the
effect trace. -/
def matchLoop (env : SyncEnv) :
    ℕ → List SpotifyTrack →
    Option (List (SpotifyTrack × (Option ResolvedTrack × ℚ))) × ℕ × List SyncEffect
  | k, [] => (some [], k, [])
  | k, t :: ts =>
    if env.flagAt k then (none, k + 1, [])
    else
      let r := findTrackInMediaServer env.media t
      let rest := matchLoop env (k + 1) ts
      (rest.1.map (fun l => (t, r) :: l), rest.2.1,
        SyncEffect.progress "Matching tracks" :: SyncEffect.findTrack t.name ::
          rest.2.2)

/-- Embeds `PlaylistSyncService._download_missing_tracks` (lines 617-638):
one enqueue attempt per unmatched track, counting the ones that returned a
download id; exceptions are caught per track and do not abort the loop. -/
def downloadMissingTracks (env : SyncEnv) :
    List SpotifyTrack → ℤ × List SyncEffect
  | [] => (0, [])
  | t :: ts =>
    let q := env.generateQuery t
    let rest := downloadMissingTracks env ts
    match env.searchAndDownloadBest q with
    | .ok (some _) => (rest.1 + 1, SyncEffect.download q :: rest.2)
    | .ok none => (rest.1, SyncEffect.download q :: rest.2)
    | .error _ => (rest.1, SyncEffect.download q :: rest.2)

/-- The tail of the pipeline after matching and downloading (lines 224-333):
validate `ratingKey`s, call `update_playlist` (whose exception is caught by
the outer handler, producing an error result), compute the counts and add the
unmatched tracks to the wishlist. -/
def finishSync (env : SyncEnv) (playlist : SpotifyPlaylist)
    (matched unmatched : List (SpotifyTrack × (Option ResolvedTrack × ℚ)))
    (downloaded : ℤ) : SyncResult × List SyncEffect :=
  let mediaTracks := matched.filterMap (fun r => r.2.1)
  let validTracks := mediaTracks.filter (fun t => t.hasRatingKey)
  let syncAttempt : Except PyErr Bool :=
    if ¬ env.media.clientPresent then .ok false
    else env.updatePlaylist playlist.name validTracks
  match syncAttempt with
  | .error e =>
    (createErrorResult playlist.name
      [match e with
       | .attributeError m => m
       | .valueError m => m],
     [SyncEffect.progress "Creating or updating playlist",
      SyncEffect.updatePlaylist playlist.name])
  | .ok success =>
    let synced : ℤ := if success then validTracks.length else 0
    let failed : ℤ := (playlist.tracks.length : ℤ) - synced - downloaded
    let wishlistAdded : ℤ := ((unmatched.map (fun r => r.1)).countP env.wishlistAdd : ℕ)
    ({ playlistName := playlist.name
       totalTracks := playlist.tracks.length
       matchedTracks := matched.length
       syncedTracks := synced
       downloadedTracks := downloaded
       failedTracks := failed
       errors := []
       wishlistAddedCount := wishlistAdded },
     [SyncEffect.progress "Creating or updating playlist",
      SyncEffect.updatePlaylist playlist.name,
      SyncEffect.progress "Sync completed"])

/-- The `try:` body of `sync_playlist` (src/services/sync_service.py lines
143-338), after the playlist has been added to the syncing set: the
sequence of cancellation observations, the empty-playlist error, the
matching loop, the optional download step and the finishing steps. -/
def syncBody (env : SyncEnv) (playlist : SpotifyPlaylist)
    (downloadMissing : Bool) : SyncResult × List SyncEffect :=
  if env.flagAt 0 then (createErrorResult playlist.name ["Sync cancelled"], [])
  else
    let eff0 := [SyncEffect.progress "Preparing playlist sync"]
    if playlist.tracks = [] then
      (createErrorResult playlist.name
        ["Playlist " ++ playlist.name ++ " has no tracks"], eff0)
    else if env.flagAt 1 then
      (createErrorResult playlist.name ["Sync cancelled"], eff0)
    else
      let eff1 := eff0 ++ [SyncEffect.progress "Matching tracks against library"]
      match matchLoop env 2 playlist.tracks with
      | (none, _, effs) =>
        (createErrorResult playlist.name ["Sync cancelled"], eff1 ++ effs)
      | (some matchResults, k, effs) =>
        let matched := matchResults.filter isMatchResult
        let unmatched := matchResults.filter (fun r => ¬ isMatchResult r)
        if env.flagAt k then
          (createErrorResult playlist.name ["Sync cancelled"], eff1 ++ effs)
        else
          let eff2 := eff1 ++ effs ++ [SyncEffect.progress "Matching completed"]
          if downloadMissing ∧ unmatched ≠ [] then
            if env.flagAt (k + 1) then
              (createErrorResult playlist.name ["Sync cancelled"], eff2)
            else
              let dl := downloadMissingTracks env (unmatched.map (fun r => r.1))
              if env.flagAt (k + 2) then
                (createErrorResult playlist.name ["Sync cancelled"],
                 eff2 ++ SyncEffect.progress "Downloading missing tracks" :: dl.2)
              else
                let fin := finishSync env playlist matched unmatched dl.1
                (fin.1,
                 eff2 ++ (SyncEffect.progress "Downloading missing tracks" :: dl.2)
                   ++ fin.2)
          else
            if env.flagAt (k + 1) then
              (createErrorResult playlist.name ["Sync cancelled"], eff2)
            else
              let fin := finishSync env playlist matched unmatched 0
              (fin.1, eff2 ++ fin.2)

/-- Embeds `PlaylistSyncService.sync_playlist` (src/services/sync_service.py
lines 123-344): the duplicate-sync rejection, the addition to the syncing
set, the body with its exception handler, and the `finally:` block that
discards the playlist from the syncing set, clears its progress callback and
resets the flag on every exit path. -/
def syncPlaylist (env : SyncEnv) (st : ServiceState)
    (playlist : SpotifyPlaylist) (downloadMissing : Bool) :
    ServiceState × SyncResult × List SyncEffect :=
  if playlist.name ∈ st.syncingPlaylists then
    (st,
     createErrorResult playlist.name
       ["Sync already in progress for playlist: " ++ playlist.name],
     [])
  else
    let st1 : ServiceState :=
      { st with
        syncingPlaylists := playlist.name :: st.syncingPlaylists
        cancelled := false }
    let body := syncBody env playlist downloadMissing
    let st2 : ServiceState :=
      { progressCallbacks :=
          st1.progressCallbacks.filter (fun n => n ≠ playlist.name)
        syncingPlaylists :=
          st1.syncingPlaylists.filter (fun n => n ≠ playlist.name)
        cancelled := false }
    (st2, body.1, body.2)

/-- A sync environment in which every external call is inert. -/
def demoMediaEnv : MediaEnv :=
  { serverType := "plex", clientPresent := false,
    supportsMetadataSearch := false, metadataSearch := fun _ _ => none,
    isConnected := false, transferDirExists := false,
    hasGetTrackByFilename := false, getTrackByFilename := fun _ => none,
    fsWalk := fun _ => [], checkTrackExists := fun _ _ _ _ => (none, 0),
    fetchItem := fun _ => .ok none, cancelled := false }

def demoSyncEnv : SyncEnv :=
  { media := demoMediaEnv, flagAt := fun _ => false,
    updatePlaylist := fun _ _ => .ok true, generateQuery := fun t => t.name,
    searchAndDownloadBest := fun _ => .ok none, wishlistAdd := fun _ => true }

/-- Environment whose cancellation flag is already set at the first check. -/
def demoCancelEnv0 : SyncEnv := { demoSyncEnv with flagAt := fun _ => true }

/-- Environment whose cancellation flag turns on exactly at the first
per-track boundary. -/
def demoCancelEnv2 : SyncEnv := { demoSyncEnv with flagAt := fun n => n == 2 }

def demoTr : SpotifyTrack := ⟨"t1", "Song", ["Artist"]⟩

def demoServerTrack : ServerTrack := ⟨"sid", "Song", some "rk1"⟩

def demoDbTrack : DbTrack := ⟨"dbid", "Song"⟩

def demoFSFile : FSFile := ⟨"song.mp3", true, 42, "/transfer/Artist/song.mp3"⟩

/-- A jellyfin adapter whose metadata search always hits. -/
def envT1 : MediaEnv :=
  { demoMediaEnv with
    serverType := "jellyfin"
    clientPresent := true
    supportsMetadataSearch := true
    metadataSearch := fun _ _ => some demoServerTrack }

/-- No client, but the transfer directory holds a matching audio file. -/
def envT2 : MediaEnv :=
  { demoMediaEnv with
    transferDirExists := true
    fsWalk := fun _ => [demoFSFile] }

/-- A connected jellyfin client with no metadata search and no transfer
directory, whose catalog hits at confidence 0.8. -/
def envT3 : MediaEnv :=
  { demoMediaEnv with
    serverType := "jellyfin"
    clientPresent := true
    isConnected := true
    checkTrackExists := fun _ _ _ _ => (some demoDbTrack, 0.8) }

/-- C9 (amended): `_is_valid_guid` accepts a string exactly when the trimmed
string is 32 or 36 characters long and removing its hyphens leaves exactly 32
characters that CPython `int(·, 16)` accepts; and `create_playlist` keeps for
the playlist write exactly the (stripped) accepted ids, filtering the invalid
ones out instead of raising. -/
theorem C9_guid_validation :
    (∀ s : String,
      isValidGuid s = true ↔
        ((pyStrip s).length = 32 ∨ (pyStrip s).length = 36) ∧
        (removeHyphens (pyStrip s)).length = 32 ∧
        pyIntHexAccepts (removeHyphens (pyStrip s)) = true) ∧
    (∀ ts : List PlaylistTrackObj,
      (collectTrackIds ts).1 = ts.filterMap (fun t =>
        match trackIdOf t with
        | some s => if s ≠ "" && isValidGuid s then some (pyStrip s) else none
        | none => none)) := by
  constructor
  · intro s
    by_cases hs : s = ""
    · subst hs
      decide
    · simp only [isValidGuid, if_neg hs]
      by_cases hlen : ((pyStrip s).length = 32 || (pyStrip s).length = 36) = true
      · simp only [hlen, if_true]
        by_cases h32 : (removeHyphens (pyStrip s)).length = 32
        · simp only [h32, if_pos rfl]
          simp only [Bool.or_eq_true, decide_eq_true_eq] at hlen
          tauto
        · simp only [if_neg h32]
          simp only [Bool.false_eq_true, false_iff]
          tauto
      · simp only [hlen, if_false]
        simp only [Bool.or_eq_true, decide_eq_true_eq] at hlen
        push_neg at hlen
        simp only [Bool.false_eq_true, false_iff]
        tauto
  · intro ts
    induction ts with
    | nil => rfl
    | cons t ts ih =>
      simp only [collectTrackIds, List.filterMap_cons]
      cases h : trackIdOf t with
      | none => simpa [h] using ih
      | some s =>
        simp only [h]
        split_ifs with hc
        · simpa using ih
        · simpa using ih

/-- C9 (counterexample): a 33-character id consisting of 32 hex characters
plus one hyphen satisfies the claim's predicate (hyphen count unrestricted)
but `_is_valid_guid` rejects it, because the code also requires the trimmed
string itself to be 32 or 36 characters long. -/
theorem C9_guid_counterexample :
    claimC9ValidId "01234567-89abcdef0123456789abcdef" = true ∧
    isValidGuid "01234567-89abcdef0123456789abcdef" = false := by
  constructor <;> decide

/-- C8: the album match confidence is
`0.5·max(title_sim, clean_title_sim, normalized_title_sim) + 0.5·artist_sim`,
multiplied by 0.3 when `artist_sim < 0.6`; when an expected track count is
supplied and the album stores a track count and the cleaned-title similarity
is at least 0.8, a bonus `min(0.15, (db−expected)/expected·0.1)` is added when
`db ≥ expected` and 0.1 is subtracted when `db < 0.8·expected`; the result is
capped at 1.0 (and without a supplied expected count no adjustment happens). -/
theorem C8_album_confidence
    (sim : String → String → ℚ) (cleanTitle normalize : String → String)
    (searchTitle searchArtist : String) (album : DatabaseAlbum) (e c : ℤ)
    (htc : album.trackCount = some c) (he : 1 ≤ e) (hc : 1 ≤ c) :
    (calculateAlbumConfidence sim cleanTitle normalize searchTitle searchArtist
        album (some e) =
      (let titleSim := sim (pyLower searchTitle) (pyLower album.title)
       let artistSim := sim (pyLower searchArtist) (pyLower album.artistName)
       let cleanSim := sim (cleanTitle searchTitle) (cleanTitle album.title)
       let normSim := sim (normalize searchTitle) (normalize album.title)
       let base := 0.5 * max titleSim (max cleanSim normSim) + 0.5 * artistSim
       let penalized := if artistSim < 0.6 then 0.3 * base else base
       let adjusted :=
         if 0.8 ≤ cleanSim then
           if (e : ℚ) ≤ (c : ℚ) then
             penalized + min 0.15 (((c : ℚ) - (e : ℚ)) / (e : ℚ) * 0.1)
           else if (c : ℚ) < 0.8 * (e : ℚ) then penalized - 0.1
           else penalized
         else penalized
       min 1 adjusted)) ∧
    (calculateAlbumConfidence sim cleanTitle normalize searchTitle searchArtist
        album none =
      (let titleSim := sim (pyLower searchTitle) (pyLower album.title)
       let artistSim := sim (pyLower searchArtist) (pyLower album.artistName)
       let cleanSim := sim (cleanTitle searchTitle) (cleanTitle album.title)
       let normSim := sim (normalize searchTitle) (normalize album.title)
       let base := 0.5 * max titleSim (max cleanSim normSim) + 0.5 * artistSim
       min 1 (if artistSim < 0.6 then 0.3 * base else base))) := by
  have he0 : e ≠ 0 := by omega
  have hc0 : c ≠ 0 := by omega
  constructor
  · simp only [calculateAlbumConfidence, htc]
    have hcond : (e ≠ 0 ∧ c ≠ 0 ∧
        sim (cleanTitle searchTitle) (cleanTitle album.title) ≥ 0.8) ↔
        (0.8 ≤ sim (cleanTitle searchTitle) (cleanTitle album.title)) := by
      constructor
      · exact fun h => h.2.2
      · exact fun h => ⟨he0, hc0, h⟩
    have hce : (c ≥ e) ↔ ((e : ℚ) ≤ (c : ℚ)) := by
      exact_mod_cast Iff.rfl
    have hc8 : ((c : ℚ) < (e : ℚ) * 0.8) ↔ ((c : ℚ) < 0.8 * (e : ℚ)) := by
      rw [mul_comm]
    split_ifs with h1 h2 h3 h4 h5 h6 h7 h8 <;>
      first
        | (exact absurd (hcond.mpr (by assumption)) (by assumption))
        | (exact absurd (hcond.mp (by assumption)) (by assumption))
        | (exact absurd (hce.mpr (by assumption)) (by assumption))
        | (exact absurd (hce.mp (by assumption)) (by assumption))
        | (exact absurd (hc8.mpr (by assumption)) (by assumption))
        | (exact absurd (hc8.mp (by assumption)) (by assumption))
        | (rw [min_comm]; exact congrArg (min 1) (by ring))
  · simp only [calculateAlbumConfidence, htc]
    split_ifs <;> (rw [min_comm]; exact congrArg (min 1) (by ring))

/-- Witness for `C8_album_confidence` at a concrete similarity function and a
concrete album with 14 stored tracks against an expected count of 10. -/
theorem C8_album_confidence_witness :
    (DatabaseAlbum.mk "Dark Side" "Pink Floyd" (some 14)).trackCount = some 14 ∧
    (1 : ℤ) ≤ 10 ∧ (1 : ℤ) ≤ 14 ∧
    ((calculateAlbumConfidence (fun a b => if a = b then 1 else 0.9)
        (fun t => t) (fun t => t) "Dark Side" "Pink Floyd"
        (DatabaseAlbum.mk "Dark Side" "Pink Floyd" (some 14)) (some 10) =
      (let titleSim := (fun (a b : String) => if a = b then (1 : ℚ) else 0.9)
        (pyLower "Dark Side") (pyLower (DatabaseAlbum.mk "Dark Side" "Pink Floyd" (some 14)).title)
       let artistSim := (fun (a b : String) => if a = b then (1 : ℚ) else 0.9)
        (pyLower "Pink Floyd") (pyLower (DatabaseAlbum.mk "Dark Side" "Pink Floyd" (some 14)).artistName)
       let cleanSim := (fun (a b : String) => if a = b then (1 : ℚ) else 0.9)
        ((fun (t : String) => t) "Dark Side") ((fun (t : String) => t) (DatabaseAlbum.mk "Dark Side" "Pink Floyd" (some 14)).title)
       let normSim := (fun (a b : String) => if a = b then (1 : ℚ) else 0.9)
        ((fun (t : String) => t) "Dark Side") ((fun (t : String) => t) (DatabaseAlbum.mk "Dark Side" "Pink Floyd" (some 14)).title)
       let base := 0.5 * max titleSim (max cleanSim normSim) + 0.5 * artistSim
       let penalized := if artistSim < 0.6 then 0.3 * base else base
       let adjusted :=
         if 0.8 ≤ cleanSim then
           if ((10 : ℤ) : ℚ) ≤ ((14 : ℤ) : ℚ) then
             penalized + min 0.15 ((((14 : ℤ) : ℚ) - ((10 : ℤ) : ℚ)) / ((10 : ℤ) : ℚ) * 0.1)
           else if ((14 : ℤ) : ℚ) < 0.8 * ((10 : ℤ) : ℚ) then penalized - 0.1
           else penalized
         else penalized
       min 1 adjusted)) ∧
      (calculateAlbumConfidence (fun a b => if a = b then 1 else 0.9)
        (fun t => t) (fun t => t) "Dark Side" "Pink Floyd"
        (DatabaseAlbum.mk "Dark Side" "Pink Floyd" (some 14)) none =
      (let titleSim := (fun (a b : String) => if a = b then (1 : ℚ) else 0.9)
        (pyLower "Dark Side") (pyLower (DatabaseAlbum.mk "Dark Side" "Pink Floyd" (some 14)).title)
       let artistSim := (fun (a b : String) => if a = b then (1 : ℚ) else 0.9)
        (pyLower "Pink Floyd") (pyLower (DatabaseAlbum.mk "Dark Side" "Pink Floyd" (some 14)).artistName)
       let cleanSim := (fun (a b : String) => if a = b then (1 : ℚ) else 0.9)
        ((fun (t : String) => t) "Dark Side") ((fun (t : String) => t) (DatabaseAlbum.mk "Dark Side" "Pink Floyd" (some 14)).title)
       let normSim := (fun (a b : String) => if a = b then (1 : ℚ) else 0.9)
        ((fun (t : String) => t) "Dark Side") ((fun (t : String) => t) (DatabaseAlbum.mk "Dark Side" "Pink Floyd" (some 14)).title)
       let base := 0.5 * max titleSim (max cleanSim normSim) + 0.5 * artistSim
       min 1 (if artistSim < 0.6 then 0.3 * base else base)))) :=
  ⟨rfl, by norm_num, by norm_num,
    C8_album_confidence (fun a b => if a = b then 1 else 0.9)
      (fun t => t) (fun t => t) "Dark Side" "Pink Floyd"
      (DatabaseAlbum.mk "Dark Side" "Pink Floyd" (some 14)) 10 14 rfl
      (by norm_num) (by norm_num)⟩

theorem orderedInsertB_perm (le : α → α → Bool) (a : α) (l : List α) :
    List.Perm (orderedInsertB le a l) (a :: l) := by
  induction l with
  | nil => rfl
  | cons b l ih =>
    simp only [orderedInsertB]
    split_ifs
    · exact List.Perm.refl _
    · exact List.Perm.trans (List.Perm.cons b ih) (List.Perm.swap a b l)

theorem stableSortB_perm (le : α → α → Bool) (l : List α) :
    List.Perm (stableSortB le l) l := by
  induction l with
  | nil => exact List.Perm.refl _
  | cons a l ih =>
    exact List.Perm.trans (orderedInsertB_perm le a (stableSortB le l))
      (List.Perm.cons a ih)

theorem mem_stableSortB (le : α → α → Bool) (a : α) (l : List α) :
    a ∈ stableSortB le l ↔ a ∈ l :=
  (stableSortB_perm le l).mem_iff

theorem categorize_flac_mem (p : QualityProfile) (acc : QualityBuckets × List TrackResult)
    (c x : TrackResult) (hx : x ∈ (categorize p acc c).1.flac) :
    x ∈ acc.1.flac ∨ (x = c ∧ sizeWithin p.flac x) := by
  simp only [categorize] at hx
  split_ifs at hx <;>
    simp only [List.mem_append, List.mem_singleton] at hx <;>
    first
      | exact Or.inl hx
      | (rcases hx with hx | hx
         · exact Or.inl hx
         · subst hx
           exact Or.inr ⟨rfl, by assumption⟩)

theorem categorize_mp3_320_mem (p : QualityProfile) (acc : QualityBuckets × List TrackResult)
    (c x : TrackResult) (hx : x ∈ (categorize p acc c).1.mp3_320) :
    x ∈ acc.1.mp3_320 ∨ (x = c ∧ sizeWithin p.mp3_320 x) := by
  simp only [categorize] at hx
  split_ifs at hx <;>
    simp only [List.mem_append, List.mem_singleton] at hx <;>
    first
      | exact Or.inl hx
      | (rcases hx with hx | hx
         · exact Or.inl hx
         · subst hx
           exact Or.inr ⟨rfl, by assumption⟩)

theorem categorize_mp3_256_mem (p : QualityProfile) (acc : QualityBuckets × List TrackResult)
    (c x : TrackResult) (hx : x ∈ (categorize p acc c).1.mp3_256) :
    x ∈ acc.1.mp3_256 ∨ (x = c ∧ sizeWithin p.mp3_256 x) := by
  simp only [categorize] at hx
  split_ifs at hx <;>
    simp only [List.mem_append, List.mem_singleton] at hx <;>
    first
      | exact Or.inl hx
      | (rcases hx with hx | hx
         · exact Or.inl hx
         · subst hx
           exact Or.inr ⟨rfl, by assumption⟩)

theorem categorize_mp3_192_mem (p : QualityProfile) (acc : QualityBuckets × List TrackResult)
    (c x : TrackResult) (hx : x ∈ (categorize p acc c).1.mp3_192) :
    x ∈ acc.1.mp3_192 ∨ (x = c ∧ sizeWithin p.mp3_192 x) := by
  simp only [categorize] at hx
  split_ifs at hx <;>
    simp only [List.mem_append, List.mem_singleton] at hx <;>
    first
      | exact Or.inl hx
      | (rcases hx with hx | hx
         · exact Or.inl hx
         · subst hx
           exact Or.inr ⟨rfl, by assumption⟩)

theorem foldl_categorize_flac_mem (p : QualityProfile) :
    ∀ (rs : List TrackResult) (acc : QualityBuckets × List TrackResult),
      (∀ x ∈ acc.1.flac, sizeWithin p.flac x) →
      ∀ x ∈ (rs.foldl (categorize p) acc).1.flac, sizeWithin p.flac x := by
  intro rs
  induction rs with
  | nil => intro acc h; simpa using h
  | cons c rs ih =>
    intro acc h x hx
    refine ih (categorize p acc c) (fun y hy => ?_) x hx
    rcases categorize_flac_mem p acc c y hy with h1 | ⟨he, hs⟩
    · exact h y h1
    · exact hs

theorem foldl_categorize_mp3_320_mem (p : QualityProfile) :
    ∀ (rs : List TrackResult) (acc : QualityBuckets × List TrackResult),
      (∀ x ∈ acc.1.mp3_320, sizeWithin p.mp3_320 x) →
      ∀ x ∈ (rs.foldl (categorize p) acc).1.mp3_320, sizeWithin p.mp3_320 x := by
  intro rs
  induction rs with
  | nil => intro acc h; simpa using h
  | cons c rs ih =>
    intro acc h x hx
    refine ih (categorize p acc c) (fun y hy => ?_) x hx
    rcases categorize_mp3_320_mem p acc c y hy with h1 | ⟨he, hs⟩
    · exact h y h1
    · exact hs

theorem foldl_categorize_mp3_256_mem (p : QualityProfile) :
    ∀ (rs : List TrackResult) (acc : QualityBuckets × List TrackResult),
      (∀ x ∈ acc.1.mp3_256, sizeWithin p.mp3_256 x) →
      ∀ x ∈ (rs.foldl (categorize p) acc).1.mp3_256, sizeWithin p.mp3_256 x := by
  intro rs
  induction rs with
  | nil => intro acc h; simpa using h
  | cons c rs ih =>
    intro acc h x hx
    refine ih (categorize p acc c) (fun y hy => ?_) x hx
    rcases categorize_mp3_256_mem p acc c y hy with h1 | ⟨he, hs⟩
    · exact h y h1
    · exact hs

theorem foldl_categorize_mp3_192_mem (p : QualityProfile) :
    ∀ (rs : List TrackResult) (acc : QualityBuckets × List TrackResult),
      (∀ x ∈ acc.1.mp3_192, sizeWithin p.mp3_192 x) →
      ∀ x ∈ (rs.foldl (categorize p) acc).1.mp3_192, sizeWithin p.mp3_192 x := by
  intro rs
  induction rs with
  | nil => intro acc h; simpa using h
  | cons c rs ih =>
    intro acc h x hx
    refine ih (categorize p acc c) (fun y hy => ?_) x hx
    rcases categorize_mp3_192_mem p acc c y hy with h1 | ⟨he, hs⟩
    · exact h y h1
    · exact hs

theorem waterfall_none_iff (b : QualityBuckets) (prios : List (ℤ × String)) :
    waterfall b prios = none ↔ ∀ pr ∈ prios, bucketFor b pr.2 = [] := by
  induction prios with
  | nil => simp [waterfall]
  | cons pr rest ih =>
    obtain ⟨pri, name⟩ := pr
    simp only [waterfall]
    split_ifs with h
    · simp only [List.mem_cons]
      constructor
      · intro hc; cases hc
      · intro hall
        exact absurd (hall (pri, name) (Or.inl rfl)) h
    · simp only [ne_eq, not_not] at h
      simp [ih, h]

theorem waterfall_some (b : QualityBuckets) (prios : List (ℤ × String))
    (out : List TrackResult) (h : waterfall b prios = some out) :
    ∃ pr ∈ prios, out = bucketFor b pr.2 := by
  induction prios with
  | nil => simp [waterfall] at h
  | cons pr rest ih =>
    obtain ⟨pri, name⟩ := pr
    simp only [waterfall] at h
    split_ifs at h with hne
    · exact ⟨(pri, name), List.mem_cons_self _ _, (Option.some_inj.mp h).symm⟩
    · obtain ⟨q, hq, hout⟩ := ih h
      exact ⟨q, List.mem_cons_of_mem _ hq, hout⟩

theorem mem_enabledPriorities (p : QualityProfile) (pr : ℤ × String) :
    pr ∈ enabledPriorities p ↔
      ((p.flac.enabled = true ∧ pr = (p.flac.priority, "flac")) ∨
       (p.mp3_320.enabled = true ∧ pr = (p.mp3_320.priority, "mp3_320")) ∨
       (p.mp3_256.enabled = true ∧ pr = (p.mp3_256.priority, "mp3_256")) ∨
       (p.mp3_192.enabled = true ∧ pr = (p.mp3_192.priority, "mp3_192")) ∨
       (p.other.enabled = true ∧ pr = (p.other.priority, "other"))) := by
  simp only [enabledPriorities, List.mem_map, List.mem_filter]
  constructor
  · rintro ⟨x, ⟨hmem, hen⟩, hpr⟩
    simp only [List.mem_cons, List.not_mem_nil, or_false] at hmem
    rcases hmem with h | h | h | h | h <;> subst h <;> simp_all
  · intro h
    rcases h with ⟨hen, hpr⟩ | ⟨hen, hpr⟩ | ⟨hen, hpr⟩ | ⟨hen, hpr⟩ | ⟨hen, hpr⟩ <;>
      subst hpr <;>
      [exact ⟨("flac", p.flac), by simp [hen], rfl⟩;
       exact ⟨("mp3_320", p.mp3_320), by simp [hen], rfl⟩;
       exact ⟨("mp3_256", p.mp3_256), by simp [hen], rfl⟩;
       exact ⟨("mp3_192", p.mp3_192), by simp [hen], rfl⟩;
       exact ⟨("other", p.other), by simp [hen], rfl⟩]

/-- C2 (amended): with `fallback_enabled = false` the quality filter returns
either the empty list or the sorted bucket of exactly one enabled tier, and
for the four size-checked tiers (`flac`, `mp3_320`, `mp3_256`, `mp3_192`)
every returned candidate lies within that tier's min/max size bounds — the
`other` bucket is populated without any size check; and when every enabled
tier's bucket is empty, the filter returns the empty list. -/
theorem C2_quality_filter (p : QualityProfile) (results : List TrackResult)
    (hfb : p.fallbackEnabled = false) :
    (filterResultsByQualityPreference p results = [] ∨
      (p.flac.enabled = true ∧
        filterResultsByQualityPreference p results =
          sortBucket (buildBuckets p results).1.flac ∧
        ∀ c ∈ filterResultsByQualityPreference p results, sizeWithin p.flac c) ∨
      (p.mp3_320.enabled = true ∧
        filterResultsByQualityPreference p results =
          sortBucket (buildBuckets p results).1.mp3_320 ∧
        ∀ c ∈ filterResultsByQualityPreference p results, sizeWithin p.mp3_320 c) ∨
      (p.mp3_256.enabled = true ∧
        filterResultsByQualityPreference p results =
          sortBucket (buildBuckets p results).1.mp3_256 ∧
        ∀ c ∈ filterResultsByQualityPreference p results, sizeWithin p.mp3_256 c) ∨
      (p.mp3_192.enabled = true ∧
        filterResultsByQualityPreference p results =
          sortBucket (buildBuckets p results).1.mp3_192 ∧
        ∀ c ∈ filterResultsByQualityPreference p results, sizeWithin p.mp3_192 c) ∨
      (p.other.enabled = true ∧
        filterResultsByQualityPreference p results =
          sortBucket (buildBuckets p results).1.other)) ∧
    ((p.flac.enabled = true → (buildBuckets p results).1.flac = []) →
     (p.mp3_320.enabled = true → (buildBuckets p results).1.mp3_320 = []) →
     (p.mp3_256.enabled = true → (buildBuckets p results).1.mp3_256 = []) →
     (p.mp3_192.enabled = true → (buildBuckets p results).1.mp3_192 = []) →
     (p.other.enabled = true → (buildBuckets p results).1.other = []) →
     filterResultsByQualityPreference p results = []) := by
  by_cases hres : results = []
  · subst hres
    refine ⟨Or.inl rfl, fun _ _ _ _ _ => rfl⟩
  · constructor
    · unfold filterResultsByQualityPreference
      simp only [if_neg hres]
      cases hw : waterfall
          ⟨sortBucket (buildBuckets p results).1.flac,
           sortBucket (buildBuckets p results).1.mp3_320,
           sortBucket (buildBuckets p results).1.mp3_256,
           sortBucket (buildBuckets p results).1.mp3_192,
           sortBucket (buildBuckets p results).1.other⟩
          (stableSortB priorityTupleLe (enabledPriorities p)) with
      | none =>
        simp only [hw, hfb]
        exact Or.inl (by simp)
      | some out =>
        simp only [hw]
        obtain ⟨pr, hpr, hout⟩ := waterfall_some _ _ _ hw
        rw [(stableSortB_perm priorityTupleLe (enabledPriorities p)).mem_iff] at hpr
        rw [mem_enabledPriorities] at hpr
        rcases hpr with ⟨hen, hpr⟩ | ⟨hen, hpr⟩ | ⟨hen, hpr⟩ | ⟨hen, hpr⟩ | ⟨hen, hpr⟩ <;>
          subst hpr <;> simp only [bucketFor, reduceIte] at hout
        · refine Or.inr (Or.inl ⟨hen, hout, ?_⟩)
          intro c hc
          rw [hout] at hc
          exact foldl_categorize_flac_mem p results _ (by simp) c
            ((mem_stableSortB _ _ _).mp hc)
        · refine Or.inr (Or.inr (Or.inl ⟨hen, hout, ?_⟩))
          intro c hc
          rw [hout] at hc
          exact foldl_categorize_mp3_320_mem p results _ (by simp) c
            ((mem_stableSortB _ _ _).mp hc)
        · refine Or.inr (Or.inr (Or.inr (Or.inl ⟨hen, hout, ?_⟩)))
          intro c hc
          rw [hout] at hc
          exact foldl_categorize_mp3_256_mem p results _ (by simp) c
            ((mem_stableSortB _ _ _).mp hc)
        · refine Or.inr (Or.inr (Or.inr (Or.inr (Or.inl ⟨hen, hout, ?_⟩))))
          intro c hc
          rw [hout] at hc
          exact foldl_categorize_mp3_192_mem p results _ (by simp) c
            ((mem_stableSortB _ _ _).mp hc)
        · exact Or.inr (Or.inr (Or.inr (Or.inr (Or.inr ⟨hen, hout⟩))))
    · intro h1 h2 h3 h4 h5
      unfold filterResultsByQualityPreference
      simp only [if_neg hres]
      have hwn : waterfall
          ⟨sortBucket (buildBuckets p results).1.flac,
           sortBucket (buildBuckets p results).1.mp3_320,
           sortBucket (buildBuckets p results).1.mp3_256,
           sortBucket (buildBuckets p results).1.mp3_192,
           sortBucket (buildBuckets p results).1.other⟩
          (stableSortB priorityTupleLe (enabledPriorities p)) = none := by
        rw [waterfall_none_iff]
        intro pr hpr
        rw [(stableSortB_perm priorityTupleLe (enabledPriorities p)).mem_iff] at hpr
        rw [mem_enabledPriorities] at hpr
        rcases hpr with ⟨hen, hpr⟩ | ⟨hen, hpr⟩ | ⟨hen, hpr⟩ | ⟨hen, hpr⟩ | ⟨hen, hpr⟩ <;>
          subst hpr <;> simp only [bucketFor, reduceIte]
        · rw [h1 hen]; rfl
        · rw [h2 hen]; rfl
        · rw [h3 hen]; rfl
        · rw [h4 hen]; rfl
        · rw [h5 hen]; rfl
      simp only [hwn, hfb]
      simp

/-- C2 (counterexample): with fallback disabled and the `other` tier bounded
to 10-20 MB, a 1 MB ogg candidate is nevertheless returned from the `other`
tier — the code never applies the min/max size bounds to the `other` bucket,
so the claim "every returned candidate lies within the size bounds of the
tier it is returned from — including the `other` tier" is false. -/
theorem C2_quality_filter_counterexample :
    profileOtherOnly.fallbackEnabled = false ∧
    profileOtherOnly.other.enabled = true ∧
    filterResultsByQualityPreference profileOtherOnly [oggCandidate] = [oggCandidate] ∧
    fileSizeMb oggCandidate < profileOtherOnly.other.minMb := by
  refine ⟨rfl, rfl, by decide, ?_⟩
  norm_num [fileSizeMb, oggCandidate, profileOtherOnly]

/-- Witness for `C2_quality_filter` at the concrete profile and candidate of
the counterexample. -/
theorem C2_quality_filter_witness :
    profileOtherOnly.fallbackEnabled = false ∧
    ((filterResultsByQualityPreference profileOtherOnly [oggCandidate] = [] ∨
      (profileOtherOnly.flac.enabled = true ∧
        filterResultsByQualityPreference profileOtherOnly [oggCandidate] =
          sortBucket (buildBuckets profileOtherOnly [oggCandidate]).1.flac ∧
        ∀ c ∈ filterResultsByQualityPreference profileOtherOnly [oggCandidate],
          sizeWithin profileOtherOnly.flac c) ∨
      (profileOtherOnly.mp3_320.enabled = true ∧
        filterResultsByQualityPreference profileOtherOnly [oggCandidate] =
          sortBucket (buildBuckets profileOtherOnly [oggCandidate]).1.mp3_320 ∧
        ∀ c ∈ filterResultsByQualityPreference profileOtherOnly [oggCandidate],
          sizeWithin profileOtherOnly.mp3_320 c) ∨
      (profileOtherOnly.mp3_256.enabled = true ∧
        filterResultsByQualityPreference profileOtherOnly [oggCandidate] =
          sortBucket (buildBuckets profileOtherOnly [oggCandidate]).1.mp3_256 ∧
        ∀ c ∈ filterResultsByQualityPreference profileOtherOnly [oggCandidate],
          sizeWithin profileOtherOnly.mp3_256 c) ∨
      (profileOtherOnly.mp3_192.enabled = true ∧
        filterResultsByQualityPreference profileOtherOnly [oggCandidate] =
          sortBucket (buildBuckets profileOtherOnly [oggCandidate]).1.mp3_192 ∧
        ∀ c ∈ filterResultsByQualityPreference profileOtherOnly [oggCandidate],
          sizeWithin profileOtherOnly.mp3_192 c) ∨
      (profileOtherOnly.other.enabled = true ∧
        filterResultsByQualityPreference profileOtherOnly [oggCandidate] =
          sortBucket (buildBuckets profileOtherOnly [oggCandidate]).1.other)) ∧
    ((profileOtherOnly.flac.enabled = true →
        (buildBuckets profileOtherOnly [oggCandidate]).1.flac = []) →
     (profileOtherOnly.mp3_320.enabled = true →
        (buildBuckets profileOtherOnly [oggCandidate]).1.mp3_320 = []) →
     (profileOtherOnly.mp3_256.enabled = true →
        (buildBuckets profileOtherOnly [oggCandidate]).1.mp3_256 = []) →
     (profileOtherOnly.mp3_192.enabled = true →
        (buildBuckets profileOtherOnly [oggCandidate]).1.mp3_192 = []) →
     (profileOtherOnly.other.enabled = true →
        (buildBuckets profileOtherOnly [oggCandidate]).1.other = []) →
     filterResultsByQualityPreference profileOtherOnly [oggCandidate] = [])) :=
  ⟨rfl, C2_quality_filter profileOtherOnly [oggCandidate] rfl⟩

/-- C4: `search_and_download_best` always raises `AttributeError`, for every
quality profile, every search outcome (even the empty one) and every download
environment: the `(tracks, albums)` tuple is truthy, so it reaches the filter
loop, whose first access `candidate.quality` hits a list.  In particular it
never returns a download id, the filename fallback, or null, and the
exception propagates to the caller.  (On a genuine track list the dynamic
loop would agree with the pure filter — second conjunct — so the failure is
the tuple argument, not the model.) -/
theorem C4_search_and_download_best_raises :
    (∀ (p : QualityProfile) (searchResult : SearchOutcome)
      (downloadId : TrackResult → Option String),
      searchAndDownloadBest p searchResult downloadId =
        .error (.attributeError "list object has no attribute quality")) ∧
    (∀ (p : QualityProfile) (ts : List TrackResult),
      ts ≠ [] →
      filterResultsDyn p (ts.map .track) =
        .ok (filterResultsByQualityPreference p ts)) := by
  constructor
  · intro p searchResult downloadId
    rfl
  · intro p ts hne
    have hmap : ∀ l : List TrackResult, extractTracks (l.map .track) = .ok l := by
      intro l
      induction l with
      | nil => rfl
      | cons t l ih =>
        simp only [List.map_cons, extractTracks, ih]
        rfl
    have hne2 : ts.map PyCandidate.track ≠ [] := by
      simpa using hne
    simp [filterResultsDyn, hne2, hmap ts]

/-- Witness for `C4_search_and_download_best_raises`: the raise on the empty
search outcome, and the dynamic/pure filter agreement on a one-candidate
track list. -/
theorem C4_search_and_download_best_raises_witness :
    searchAndDownloadBest profileOtherOnly ⟨[], []⟩ (fun _ => none) =
      .error (.attributeError "list object has no attribute quality") ∧
    ([oggCandidate] : List TrackResult) ≠ [] ∧
    filterResultsDyn profileOtherOnly ([oggCandidate].map .track) =
      .ok (filterResultsByQualityPreference profileOtherOnly [oggCandidate]) :=
  ⟨C4_search_and_download_best_raises.1 profileOtherOnly ⟨[], []⟩ (fun _ => none),
   by decide,
   C4_search_and_download_best_raises.2 profileOtherOnly [oggCandidate]
     (by decide)⟩

theorem spaced_nil : spaced [] := by
  intro i j hi
  simp at hi

theorem spaced_tail {x : ℚ} {xs : List ℚ} (h : spaced (x :: xs)) : spaced xs := by
  intro i j hi hj hij
  have := h (i + 1) (j + 1) (by simpa using Nat.succ_lt_succ hi)
    (by simpa using Nat.succ_lt_succ hj) (by omega)
  simpa using this

theorem pairwise_le_get {h : List ℚ} (hp : List.Pairwise (· ≤ ·) h)
    (i j : Fin h.length) (hij : (i : ℕ) ≤ (j : ℕ)) : h.get i ≤ h.get j := by
  rcases Nat.lt_or_ge (i : ℕ) (j : ℕ) with hlt | hge
  · exact List.pairwise_iff_get.mp hp i j hlt
  · have : (i : ℕ) = (j : ℕ) := le_antisymm hij hge
    have : i = j := Fin.ext this
    subst this
    exact le_refl _

theorem windowCount_le_of_spaced (T : ℚ) :
    ∀ h : List ℚ, spaced h → windowCount T h ≤ maxSearchesPerWindow := by
  intro h
  induction h with
  | nil => intro _; simp [windowCount, maxSearchesPerWindow]
  | cons x xs ih =>
    intro hsp
    by_cases hx : T - rateLimitWindow < x
    · have hsplit : windowCount T (x :: xs) =
          ((x :: xs).take maxSearchesPerWindow).countP
            (fun y => decide (T - rateLimitWindow < y) && decide (y ≤ T)) +
          ((x :: xs).drop maxSearchesPerWindow).countP
            (fun y => decide (T - rateLimitWindow < y) && decide (y ≤ T)) := by
        rw [windowCount, ← List.countP_append, List.take_append_drop]
      have hdrop : ((x :: xs).drop maxSearchesPerWindow).countP
          (fun y => decide (T - rateLimitWindow < y) && decide (y ≤ T)) = 0 := by
        apply List.countP_eq_zero.mpr
        intro a ha
        obtain ⟨k, hget⟩ := List.mem_iff_get.mp ha
        have hk2 : maxSearchesPerWindow + (k : ℕ) < (x :: xs).length := by
          have hkl := k.isLt
          have hlen := List.length_drop maxSearchesPerWindow (x :: xs)
          omega
        have hgetd : ((x :: xs).drop maxSearchesPerWindow).get k =
            (x :: xs).get ⟨maxSearchesPerWindow + (k : ℕ), hk2⟩ := by
          simp [List.get_drop]
        have hsp0 := hsp 0 (maxSearchesPerWindow + (k : ℕ)) (by simp) hk2 (by omega)
        have hx0 : (x :: xs).get ⟨0, by simp⟩ = x := rfl
        rw [hx0] at hsp0
        have hTa : T < a := by
          rw [← hget, hgetd]
          linarith
        simp only [Bool.and_eq_true, decide_eq_true_eq, not_and]
        intro _
        exact not_le.mpr hTa
      have htake : ((x :: xs).take maxSearchesPerWindow).countP
          (fun y => decide (T - rateLimitWindow < y) && decide (y ≤ T)) ≤
          maxSearchesPerWindow := by
        calc ((x :: xs).take maxSearchesPerWindow).countP _
            ≤ ((x :: xs).take maxSearchesPerWindow).length := List.countP_le_length _
          _ ≤ maxSearchesPerWindow := by
              rw [List.length_take]
              exact min_le_left _ _
      omega
    · have hpx : (fun y => decide (T - rateLimitWindow < y) && decide (y ≤ T)) x
          = false := by
        simp [hx]
      have : windowCount T (x :: xs) = windowCount T xs := by
        simp [windowCount, List.countP_cons, hpx]
      rw [this]
      exact ih (spaced_tail hsp)

theorem cleanOld_cleanOld {t1 t2 : ℚ} (hle : t1 ≤ t2) (h : List ℚ) :
    cleanOldTimestamps t2 (cleanOldTimestamps t1 h) = cleanOldTimestamps t2 h := by
  unfold cleanOldTimestamps
  rw [List.filter_filter]
  apply List.filter_congr
  intro x _
  by_cases h2 : t2 - rateLimitWindow < x
  · have h1 : t1 - rateLimitWindow < x := by linarith
    simp [h1, h2]
  · simp [h2]

theorem filter_gt_eq_drop (c : ℚ) :
    ∀ h : List ℚ, List.Pairwise (· ≤ ·) h →
      ∃ k, k ≤ h.length ∧ h.filter (fun x => decide (c < x)) = h.drop k := by
  intro h
  induction h with
  | nil => exact fun _ => ⟨0, by simp, rfl⟩
  | cons x xs ih =>
    intro hp
    rcases List.pairwise_cons.mp hp with ⟨hall, hxs⟩
    by_cases hc : c < x
    · refine ⟨0, by simp, ?_⟩
      simp only [List.drop_zero]
      rw [List.filter_cons_of_pos (by simpa using hc)]
      congr 1
      apply List.filter_eq_self.mpr
      intro a ha
      simpa using lt_of_lt_of_le hc (hall a ha)
    · obtain ⟨k, hk, hfil⟩ := ih hxs
      refine ⟨k + 1, by simpa using hk, ?_⟩
      rw [List.filter_cons_of_neg (by simpa using hc)]
      simpa using hfil

theorem length_filter_ge_of_get (c : ℚ) (h : List ℚ)
    (hp : List.Pairwise (· ≤ ·) h) (i : ℕ) (hi : i < h.length)
    (hgt : c < h.get ⟨i, hi⟩) :
    h.length - i ≤ (h.filter (fun x => decide (c < x))).length := by
  have hdrop : ((h.drop i).countP (fun x => decide (c < x))) = (h.drop i).length := by
    apply List.countP_eq_length.mpr
    intro a ha
    obtain ⟨k, hget⟩ := List.mem_iff_get.mp ha
    have hk2 : i + (k : ℕ) < h.length := by
      have hkl := k.isLt
      have hlen := List.length_drop i h
      omega
    have hgetd : (h.drop i).get k = h.get ⟨i + (k : ℕ), hk2⟩ := by
      simp [List.get_drop]
    have hmono := pairwise_le_get hp ⟨i, hi⟩ ⟨i + (k : ℕ), hk2⟩ (by simp)
    simp only [decide_eq_true_eq]
    rw [← hget, hgetd]
    exact lt_of_lt_of_le hgt hmono
  have hsplit : (h.filter (fun x => decide (c < x))).length =
      (h.take i).countP (fun x => decide (c < x)) +
      (h.drop i).countP (fun x => decide (c < x)) := by
    rw [← List.countP_eq_length_filter, ← List.countP_append, List.take_append_drop]
  rw [hsplit, hdrop, List.length_drop]
  omega

theorem spaced_append_singleton (h : List ℚ) (r : ℚ) (hs : spaced h)
    (hnew : ∀ (i : ℕ) (hi : i < h.length), i + maxSearchesPerWindow ≤ h.length →
      h.get ⟨i, hi⟩ + rateLimitWindow ≤ r) :
    spaced (h ++ [r]) := by
  intro i j hi hj hij
  have hlen : (h ++ [r]).length = h.length + 1 := by simp
  by_cases hjh : j < h.length
  · have hih : i < h.length := by omega
    have hgi : (h ++ [r]).get ⟨i, hi⟩ = h.get ⟨i, hih⟩ := List.get_append i hih
    have hgj : (h ++ [r]).get ⟨j, hj⟩ = h.get ⟨j, hjh⟩ := List.get_append j hjh
    rw [hgi, hgj]
    exact hs i j hih hjh hij
  · have hj2 : j = h.length := by omega
    have hih : i < h.length := by
      have hm : maxSearchesPerWindow = 35 := rfl
      omega
    have hgi : (h ++ [r]).get ⟨i, hi⟩ = h.get ⟨i, hih⟩ := List.get_append i hih
    have hgj : (h ++ [r]).get ⟨j, hj⟩ = r := by
      have := List.getElem_concat_length h r j hj2 (by omega)
      simpa [List.get_eq_getElem] using this
    rw [hgi, hgj]
    exact hnew i hih (by omega)

theorem pairwise_append_singleton (h : List ℚ) (r : ℚ)
    (hp : List.Pairwise (· ≤ ·) h) (hler : ∀ x ∈ h, x ≤ r) :
    List.Pairwise (· ≤ ·) (h ++ [r]) := by
  rw [List.pairwise_append]
  refine ⟨hp, List.pairwise_singleton _ _, ?_⟩
  intro a ha b hb
  rw [List.mem_singleton] at hb
  subst hb
  exact hler a ha

/-- One call of `_wait_for_rate_limit`, arriving at time `t ≥ now` against a
history `h` of previously recorded timestamps (all ≤ `now`, in order, spaced)
whose in-window part is the stored list: the call records a time `r ≥ t`,
afterwards the stored list is again the in-window part of the extended
history `h ++ [r]`, and the extended history is still ordered and spaced. -/
theorem waitForRateLimit_step (h stamps : List ℚ) (now t : ℚ)
    (hnt : now ≤ t)
    (hst : stamps = cleanOldTimestamps now h)
    (hle : ∀ x ∈ h, x ≤ now)
    (hp : List.Pairwise (· ≤ ·) h)
    (hs : spaced h) :
    t ≤ (waitForRateLimit t stamps).1 ∧
    (waitForRateLimit t stamps).2 =
      cleanOldTimestamps (waitForRateLimit t stamps).1
        (h ++ [(waitForRateLimit t stamps).1]) ∧
    (∀ x ∈ h, x ≤ (waitForRateLimit t stamps).1) ∧
    List.Pairwise (· ≤ ·) (h ++ [(waitForRateLimit t stamps).1]) ∧
    spaced (h ++ [(waitForRateLimit t stamps).1]) := by
  subst hst
  have hwpos : (0 : ℚ) < rateLimitWindow := by norm_num [rateLimitWindow]
  have hl1 : cleanOldTimestamps t (cleanOldTimestamps now h) = cleanOldTimestamps t h :=
    cleanOld_cleanOld hnt h
  have hleT : ∀ x ∈ h, x ≤ t := fun x hx => le_trans (hle x hx) hnt
  have hself : cleanOldTimestamps t ([t] : List ℚ) = [t] := by
    unfold cleanOldTimestamps
    rw [List.filter_cons_of_pos (by simp; linarith)]
    rfl
  by_cases htop : maxSearchesPerWindow ≤ (cleanOldTimestamps t h).length
  · -- window full: the code waits until the oldest timestamp leaves
    have hlen35 : (cleanOldTimestamps t h).length = maxSearchesPerWindow := by
      refine le_antisymm ?_ htop
      have hwc : (cleanOldTimestamps t h).length = windowCount t h := by
        unfold cleanOldTimestamps windowCount
        rw [← List.countP_eq_length_filter]
        refine List.countP_congr ?_
        intro x hx
        have hxt : x ≤ t := hleT x hx
        simp [hxt]
      rw [hwc]
      exact windowCount_le_of_spaced t h hs
    obtain ⟨k, hk, hdropeq⟩ := filter_gt_eq_drop (t - rateLimitWindow) h hp
    have hdlen : (h.drop k).length = h.length - k := List.length_drop k h
    have hklen : k + maxSearchesPerWindow = h.length := by
      have : (cleanOldTimestamps t h).length = (h.drop k).length := by
        rw [← hdropeq]; rfl
      omega
    have hm35 : maxSearchesPerWindow = 35 := rfl
    have hkl : k < h.length := by omega
    have hceq : cleanOldTimestamps t h = h[k] :: h.drop (k + 1) := by
      unfold cleanOldTimestamps
      rw [hdropeq]
      exact List.drop_eq_getElem_cons hkl
    have holdest : (cleanOldTimestamps t h).headD 0 = h.get ⟨k, hkl⟩ := by
      rw [hceq, List.headD_cons]
      simp [List.get_eq_getElem]
    have hwin : t - rateLimitWindow < h.get ⟨k, hkl⟩ := by
      have hmem : h.get ⟨k, hkl⟩ ∈ cleanOldTimestamps t h := by
        rw [hceq, List.get_eq_getElem]
        exact List.mem_cons_self _ _
      have := (List.mem_filter.mp hmem).2
      simpa using this
    have hwait : 0 < (cleanOldTimestamps t h).headD 0 + rateLimitWindow - t := by
      rw [holdest]; linarith
    have hwfr : waitForRateLimit t (cleanOldTimestamps now h) =
        (t + ((cleanOldTimestamps t h).headD 0 + rateLimitWindow - t),
         cleanOldTimestamps (t + ((cleanOldTimestamps t h).headD 0 + rateLimitWindow - t))
           (cleanOldTimestamps t h) ++
           [t + ((cleanOldTimestamps t h).headD 0 + rateLimitWindow - t)]) := by
      unfold waitForRateLimit
      rw [hl1, if_pos htop, if_pos hwait]
    rw [hwfr]
    simp only []
    set r := t + ((cleanOldTimestamps t h).headD 0 + rateLimitWindow - t) with hrdef
    have hr2 : r = h.get ⟨k, hkl⟩ + rateLimitWindow := by
      rw [hrdef, holdest]; ring
    have htr : t ≤ r := by rw [hrdef]; linarith
    have hler : ∀ x ∈ h, x ≤ r := fun x hx => le_trans (hleT x hx) htr
    have hrself : cleanOldTimestamps r ([r] : List ℚ) = [r] := by
      unfold cleanOldTimestamps
      rw [List.filter_cons_of_pos (by simp; linarith)]
      rfl
    refine ⟨htr, ?_, hler, pairwise_append_singleton h r hp hler, ?_⟩
    · rw [cleanOld_cleanOld htr h]
      unfold cleanOldTimestamps
      rw [List.filter_append]
      congr 1
      unfold cleanOldTimestamps at hrself
      exact hrself.symm
    · refine spaced_append_singleton h r hs ?_
      intro i hi hi35
      have hik : i ≤ k := by omega
      have hmono := pairwise_le_get hp ⟨i, hi⟩ ⟨k, hkl⟩ (by simpa using hik)
      rw [hr2]
      have := hmono
      linarith
  · -- window not full: proceed immediately
    have hwfr : waitForRateLimit t (cleanOldTimestamps now h) =
        (t, cleanOldTimestamps t h ++ [t]) := by
      unfold waitForRateLimit
      rw [hl1, if_neg htop]
    rw [hwfr]
    simp only []
    refine ⟨le_refl t, ?_, hleT, pairwise_append_singleton h t hp hleT, ?_⟩
    · unfold cleanOldTimestamps
      rw [List.filter_append]
      congr 1
      unfold cleanOldTimestamps at hself
      exact hself.symm
    · refine spaced_append_singleton h t hs ?_
      intro i hi hi35
      by_contra hcon
      push_neg at hcon
      have hgt : t - rateLimitWindow < h.get ⟨i, hi⟩ := by linarith
      have hcount := length_filter_ge_of_get (t - rateLimitWindow) h hp i hi hgt
      have : maxSearchesPerWindow ≤ (cleanOldTimestamps t h).length := by
        unfold cleanOldTimestamps
        have hm35 : maxSearchesPerWindow = 35 := rfl
        omega
      exact htop this

/-- The full-trace invariant: starting from a faithful state, the extended
history of recorded start timestamps stays spaced. -/
theorem runRateLimiter_spaced :
    ∀ (gaps : List ℚ) (h stamps : List ℚ) (now : ℚ),
      (∀ g ∈ gaps, 0 ≤ g) →
      stamps = cleanOldTimestamps now h →
      (∀ x ∈ h, x ≤ now) →
      List.Pairwise (· ≤ ·) h →
      spaced h →
      spaced (h ++ runRateLimiter now stamps gaps) := by
  intro gaps
  induction gaps with
  | nil =>
    intro h stamps now _ _ _ _ hs
    simpa [runRateLimiter] using hs
  | cons g gs ih =>
    intro h stamps now hg hst hle hp hs
    have hg0 : 0 ≤ g := hg g (List.mem_cons_self g gs)
    have hnt : now ≤ now + g := by linarith
    obtain ⟨h1, h2, h3, h4, h5⟩ :=
      waitForRateLimit_step h stamps now (now + g) hnt hst hle hp hs
    have hgs : ∀ x ∈ gs, (0 : ℚ) ≤ x := fun x hx => hg x (List.mem_cons_of_mem g hx)
    have h3r : ∀ x ∈ h ++ [(waitForRateLimit (now + g) stamps).1],
        x ≤ (waitForRateLimit (now + g) stamps).1 := by
      intro x hx
      rcases List.mem_append.mp hx with hx | hx
      · exact h3 x hx
      · rw [List.mem_singleton] at hx
        subst hx
        exact le_refl _
    have hrec :=
      ih (h ++ [(waitForRateLimit (now + g) stamps).1])
        (waitForRateLimit (now + g) stamps).2
        (waitForRateLimit (now + g) stamps).1 hgs h2 h3r h4 h5
    have happ : (h ++ [(waitForRateLimit (now + g) stamps).1]) ++
        runRateLimiter (waitForRateLimit (now + g) stamps).1
          (waitForRateLimit (now + g) stamps).2 gs =
        h ++ runRateLimiter now stamps (g :: gs) := by
      show _ = h ++ ((waitForRateLimit (now + g) stamps).1 ::
        runRateLimiter (waitForRateLimit (now + g) stamps).1
          (waitForRateLimit (now + g) stamps).2 gs)
      simp
    rw [← happ]
    exact hrec

/-- C6: (1) for any start time and any sequence of searches (nonnegative
delays between a recorded start and the next arrival), no sliding window of
`rate_limit_window` seconds ever contains more than `max_searches_per_window`
recorded search start timestamps; (2) a search arriving when fewer than 35
starts are within the window records its arrival time and proceeds without
waiting; (3) a search arriving when at least 35 starts are within the window
records `oldest + rate_limit_window` — it waits until the oldest start is no
longer within the window at the recorded time. -/
theorem C6_rate_limiter :
    (∀ (startTime T : ℚ) (gaps : List ℚ), (∀ g ∈ gaps, 0 ≤ g) →
      windowCount T (runRateLimiter startTime [] gaps) ≤ maxSearchesPerWindow) ∧
    (∀ (t : ℚ) (stamps : List ℚ),
      (cleanOldTimestamps t stamps).length < maxSearchesPerWindow →
      waitForRateLimit t stamps = (t, cleanOldTimestamps t stamps ++ [t])) ∧
    (∀ (t : ℚ) (stamps : List ℚ),
      maxSearchesPerWindow ≤ (cleanOldTimestamps t stamps).length →
      t - rateLimitWindow < (cleanOldTimestamps t stamps).headD 0 →
      (waitForRateLimit t stamps).1 =
        (cleanOldTimestamps t stamps).headD 0 + rateLimitWindow ∧
      ¬ ((waitForRateLimit t stamps).1 - rateLimitWindow <
          (cleanOldTimestamps t stamps).headD 0)) := by
  refine ⟨?_, ?_, ?_⟩
  · intro startTime T gaps hg
    have := runRateLimiter_spaced gaps [] [] startTime hg rfl (by simp)
      List.Pairwise.nil spaced_nil
    rw [List.nil_append] at this
    exact windowCount_le_of_spaced T _ this
  · intro t stamps hlt
    unfold waitForRateLimit
    rw [if_neg (not_le.mpr hlt)]
  · intro t stamps htop hwin
    have hwait : 0 < (cleanOldTimestamps t stamps).headD 0 + rateLimitWindow - t := by
      linarith
    have hwfr : (waitForRateLimit t stamps).1 =
        t + ((cleanOldTimestamps t stamps).headD 0 + rateLimitWindow - t) := by
      unfold waitForRateLimit
      rw [if_pos htop, if_pos hwait]
    constructor
    · rw [hwfr]; ring
    · rw [hwfr]
      intro hcon
      have : (cleanOldTimestamps t stamps).headD 0 <
          (cleanOldTimestamps t stamps).headD 0 := by linarith
      exact lt_irrefl _ this

/-- Witness for `C6_rate_limiter`: the empty trace for the window bound; an
empty timestamp list for the no-wait clause; a full window of 35 timestamps
at time −1 for the wait clause. -/
theorem C6_rate_limiter_witness :
    windowCount 0 (runRateLimiter 0 [] []) ≤ maxSearchesPerWindow ∧
    waitForRateLimit 0 [] = (0, cleanOldTimestamps 0 [] ++ [0]) ∧
    ((waitForRateLimit 0 (List.replicate 35 (-1))).1 =
      (cleanOldTimestamps 0 (List.replicate 35 (-1))).headD 0 + rateLimitWindow ∧
     ¬ ((waitForRateLimit 0 (List.replicate 35 (-1))).1 - rateLimitWindow <
        (cleanOldTimestamps 0 (List.replicate 35 (-1))).headD 0)) := by
  have hg : ∀ g ∈ ([] : List ℚ), (0 : ℚ) ≤ g := by simp
  have h2 : (cleanOldTimestamps 0 ([] : List ℚ)).length < maxSearchesPerWindow := by
    decide
  have heval : cleanOldTimestamps 0 (List.replicate 35 (-1 : ℚ)) =
      List.replicate 35 (-1) := by
    norm_num [cleanOldTimestamps, rateLimitWindow, List.replicate, List.filter]
  have h3a : maxSearchesPerWindow ≤
      (cleanOldTimestamps 0 (List.replicate 35 (-1 : ℚ))).length := by
    rw [heval]
    decide
  have heval2 : (cleanOldTimestamps 0 (List.replicate 35 (-1 : ℚ))).headD 0 = -1 := by
    rw [heval, List.replicate_succ, List.headD_cons]
  have h3b : (0 : ℚ) - rateLimitWindow <
      (cleanOldTimestamps 0 (List.replicate 35 (-1 : ℚ))).headD 0 := by
    rw [heval2]
    norm_num [rateLimitWindow]
  exact ⟨C6_rate_limiter.1 0 0 [] hg, C6_rate_limiter.2.1 0 [] h2,
    C6_rate_limiter.2.2 0 (List.replicate 35 (-1)) h3a h3b⟩

theorem foldl_preserve {σ β : Type _} (f : σ → β → σ) (P : σ → Prop)
    (hf : ∀ s b, P s → P (f s b)) : ∀ (l : List β) (s : σ), P s → P (l.foldl f s) := by
  intro l
  induction l with
  | nil => intro s hs; simpa using hs
  | cons b l ih =>
    intro s hs
    exact ih (f s b) (hf s b hs)

theorem mem_keys_addToGroups (x : String × String) (key : String × String)
    (t : TrackResult) :
    ∀ gs : Groups, x ∈ (addToGroups key t gs).map (fun g => g.1) ↔
      x ∈ gs.map (fun g => g.1) ∨ x = key := by
  intro gs
  induction gs with
  | nil => simp [addToGroups]
  | cons g gs ih =>
    obtain ⟨k, ts⟩ := g
    by_cases hk : k = key
    · subst hk
      have hred : addToGroups k t ((k, ts) :: gs) = (k, ts ++ [t]) :: gs := by
        simp [addToGroups]
      rw [hred]
      simp only [List.map_cons, List.mem_cons]
      tauto
    · simp only [addToGroups, if_neg hk, List.map_cons, List.mem_cons, ih]
      tauto

theorem addToGroups_keys_nodup (key : String × String) (t : TrackResult) :
    ∀ gs : Groups, ((gs.map (fun g => g.1)).Nodup) →
      (((addToGroups key t gs).map (fun g => g.1)).Nodup) := by
  intro gs
  induction gs with
  | nil => intro _; simp [addToGroups]
  | cons g gs ih =>
    obtain ⟨k, ts⟩ := g
    intro hnd
    rw [List.map_cons, List.nodup_cons] at hnd
    by_cases hk : k = key
    · subst hk
      simpa [addToGroups, List.nodup_cons] using hnd
    · rw [addToGroups, if_neg hk, List.map_cons, List.nodup_cons]
      refine ⟨?_, ih hnd.2⟩
      rw [mem_keys_addToGroups]
      rintro (hmem | hmem)
      · exact hnd.1 hmem
      · exact hk hmem

theorem lookupGroup_addToGroups (key : String × String) (t : TrackResult) :
    ∀ (gs : Groups) (k2 : String × String),
      lookupGroup (addToGroups key t gs) k2 =
        if k2 = key then some (((lookupGroup gs key).getD []) ++ [t])
        else lookupGroup gs k2 := by
  intro gs
  induction gs with
  | nil =>
    intro k2
    by_cases hk : k2 = key
    · subst hk
      simp [addToGroups, lookupGroup]
    · simp [addToGroups, lookupGroup, hk, Ne.symm hk]
  | cons g gs ih =>
    intro k2
    obtain ⟨k, ts⟩ := g
    by_cases hk : k = key
    · subst hk
      by_cases hk2 : k2 = k
      · subst hk2
        simp [addToGroups, lookupGroup]
      · simp [addToGroups, lookupGroup, hk2, Ne.symm hk2]
    · simp only [addToGroups, if_neg hk]
      by_cases hk2 : k2 = k
      · subst hk2
        have hne : ¬ k2 = key := hk
        simp only [lookupGroup, if_neg hne]
        rw [List.find?_cons_of_pos _ (by simp), List.find?_cons_of_pos _ (by simp)]
      · have h1 := ih k2
        simp only [lookupGroup] at h1 ⊢
        rw [List.find?_cons_of_neg _ (by simpa using fun h => hk2 h.symm)]
        rw [List.find?_cons_of_neg _ (by simpa using hk)]
        rw [List.find?_cons_of_neg _ (by simpa using fun h => hk2 h.symm)]
        exact h1

theorem addToGroups_mem_tracks (key : String × String) (t : TrackResult) :
    ∀ (gs : Groups) (g : (String × String) × List TrackResult),
      g ∈ addToGroups key t gs → ∀ x ∈ g.2, (∃ g0 ∈ gs, x ∈ g0.2) ∨ x = t := by
  intro gs
  induction gs with
  | nil =>
    intro g hg x hx
    simp only [addToGroups, List.mem_singleton] at hg
    subst hg
    simp only [List.mem_singleton] at hx
    exact Or.inr hx
  | cons g0 gs ih =>
    intro g hg x hx
    obtain ⟨k, ts⟩ := g0
    by_cases hk : k = key
    · subst hk
      simp only [addToGroups, if_pos rfl] at hg
      rcases List.mem_cons.mp hg with hg | hg
      · subst hg
        rcases List.mem_append.mp hx with hx | hx
        · exact Or.inl ⟨(k, ts), List.mem_cons_self _ _, hx⟩
        · rw [List.mem_singleton] at hx
          exact Or.inr hx
      · exact Or.inl ⟨g, List.mem_cons_of_mem _ hg, hx⟩
    · simp only [addToGroups, if_neg hk] at hg
      rcases List.mem_cons.mp hg with hg | hg
      · subst hg
        exact Or.inl ⟨(k, ts), List.mem_cons_self _ _, hx⟩
      · rcases ih g hg x hx with ⟨g1, hg1, hxg1⟩ | hxt
        · exact Or.inl ⟨g1, List.mem_cons_of_mem _ hg1, hxg1⟩
        · exact Or.inr hxt

theorem processOneFile_preserves (username : String) (slots speed queue : ℤ)
    (st : List TrackResult × Groups) (f : SlskdFile) (h : procInv st) :
    procInv (processOneFile username slots speed queue st f) := by
  obtain ⟨hnd, htr⟩ := h
  unfold processOneFile
  split_ifs with haudio
  · cases hap : extractAlbumPath f.filename with
    | some ap =>
      simp only [hap]
      constructor
      · exact addToGroups_keys_nodup _ _ _ hnd
      · intro g hg x hx
        rcases addToGroups_mem_tracks _ _ _ g hg x hx with ⟨g0, hg0, hxg0⟩ | hxt
        · exact List.mem_append_left _ (htr g0 hg0 x hxg0)
        · subst hxt
          exact List.mem_append_right _ (List.mem_singleton.mpr rfl)
    | none =>
      simp only [hap]
      exact ⟨hnd, fun g hg x hx => List.mem_append_left _ (htr g hg x hx)⟩
  · exact ⟨hnd, htr⟩

theorem processResponses_inv (rs : List SlskdResponse) :
    procInv (processResponses rs) := by
  unfold processResponses
  refine foldl_preserve _ procInv ?_ rs ([], []) ?_
  · intro s r hs
    exact foldl_preserve _ procInv
      (fun s2 f2 h2 => processOneFile_preserves r.username r.freeUploadSlots
        r.uploadSpeed r.queueLength s2 f2 h2) r.files s hs
  · exact ⟨List.nodup_nil, by simp⟩

theorem lookupGroup_mem {gs : Groups} {key : String × String}
    {l : List TrackResult} (hl : lookupGroup gs key = some l) : (key, l) ∈ gs := by
  unfold lookupGroup at hl
  cases hf : List.find? (fun g => decide (g.1 = key)) gs with
  | none => rw [hf] at hl; cases hl
  | some g =>
    rw [hf] at hl
    have hmem := List.mem_of_find?_eq_some hf
    have hpred := List.find?_some hf
    simp only [decide_eq_true_eq] at hpred
    simp only [Option.map_some', Option.some_inj] at hl
    have : g = (key, l) := by
      obtain ⟨g1, g2⟩ := g
      simp only [Prod.mk.injEq]
      exact ⟨hpred, hl⟩
    rw [← this]
    exact hmem

theorem filter_key_nil (key : String × String) :
    ∀ gs : Groups, key ∉ gs.map (fun g => g.1) →
      gs.filter (fun g => decide (g.1 = key)) = [] := by
  intro gs
  induction gs with
  | nil => intro _; rfl
  | cons g gs ih =>
    intro hmem
    simp only [List.map_cons, List.mem_cons, not_or] at hmem
    rw [List.filter_cons_of_neg (by simpa using fun h => hmem.1 h.symm)]
    exact ih hmem.2

theorem filter_key_of_lookup :
    ∀ (gs : Groups), ((gs.map (fun g => g.1)).Nodup) →
      ∀ (key : String × String) (l : List TrackResult),
        lookupGroup gs key = some l →
        gs.filter (fun g => decide (g.1 = key)) = [(key, l)] := by
  intro gs
  induction gs with
  | nil => intro _ key l hl; cases hl
  | cons g gs ih =>
    intro hnd key l hl
    rw [List.map_cons, List.nodup_cons] at hnd
    obtain ⟨k, ts⟩ := g
    by_cases hk : k = key
    · subst hk
      unfold lookupGroup at hl
      rw [List.find?_cons_of_pos _ (by simp)] at hl
      simp only [Option.map_some', Option.some_inj] at hl
      rw [List.filter_cons_of_pos (by simp), hl]
      rw [filter_key_nil k gs hnd.1]
    · unfold lookupGroup at hl
      rw [List.find?_cons_of_neg _ (by simpa using hk)] at hl
      rw [List.filter_cons_of_neg (by simpa using hk)]
      exact ih hnd.2 key l hl

theorem albums_filter_key (gs : Groups) (hnd : ((gs.map (fun g => g.1)).Nodup))
    (key : String × String) (l : List TrackResult)
    (hl : lookupGroup gs key = some l) :
    (createAlbumResults gs).filter
        (fun a => decide ((a.username, a.albumPath) = key)) =
      if 2 ≤ l.length then [mkAlbumResult key.1 key.2 l] else [] := by
  unfold createAlbumResults
  rw [List.filter_map]
  have hpred : ∀ g ∈ gs.filter (fun g => decide (2 ≤ g.2.length)),
      ((fun a => decide ((a.username, a.albumPath) = key)) ∘
        (fun g => mkAlbumResult g.1.1 g.1.2 g.2)) g = decide (g.1 = key) :=
    fun g _ => rfl
  rw [List.filter_congr hpred]
  have hswap : (gs.filter (fun g => decide (2 ≤ g.2.length))).filter
        (fun g => decide (g.1 = key)) =
      (gs.filter (fun g => decide (g.1 = key))).filter
        (fun g => decide (2 ≤ g.2.length)) := by
    rw [List.filter_filter, List.filter_filter]
    exact List.filter_congr (fun a _ => by rw [Bool.and_comm])
  rw [hswap, filter_key_of_lookup gs hnd key l hl]
  by_cases h2 : 2 ≤ l.length
  · rw [List.filter_cons_of_pos (by simpa using h2), if_pos h2]
    rfl
  · rw [List.filter_cons_of_neg (by simpa using h2), if_neg h2]
    rfl

/-- C7 (amended): a `(username, containing-directory)` group with at least
two tracks becomes exactly one `AlbumResult`, whose `track_count` is the
group size and whose track list is a permutation of the group, and every
track of such a group is absent from the returned flat track list; a group
with a single track never becomes an `AlbumResult`, and its track remains in
the flat list PROVIDED its filename does not coincide with the filename of a
track grouped into some album — removal from the flat list is by filename
across all users, so a colliding single-track group is dropped entirely. -/
theorem C7_album_grouping (rs : List SlskdResponse) (key : String × String)
    (l : List TrackResult)
    (hl : lookupGroup (processResponses rs).2 key = some l) :
    (2 ≤ l.length →
      ((processSearchResponses rs).2.filter
          (fun a => decide ((a.username, a.albumPath) = key)) =
        [mkAlbumResult key.1 key.2 l]) ∧
      (mkAlbumResult key.1 key.2 l).trackCount = l.length ∧
      List.Perm (mkAlbumResult key.1 key.2 l).tracks l ∧
      (∀ t ∈ l, t ∉ (processSearchResponses rs).1)) ∧
    (l.length = 1 →
      ((processSearchResponses rs).2.filter
          (fun a => decide ((a.username, a.albumPath) = key)) = []) ∧
      (∀ t ∈ l, t.filename ∉ albumTrackFilenames (processSearchResponses rs).2 →
        t ∈ (processSearchResponses rs).1)) := by
  obtain ⟨hnd, htr⟩ := processResponses_inv rs
  have hsnd : (processSearchResponses rs).2 =
      createAlbumResults (processResponses rs).2 := rfl
  have hfst : (processSearchResponses rs).1 =
      (processResponses rs).1.filter
        (fun t => decide (t.filename ∉
          albumTrackFilenames (createAlbumResults (processResponses rs).2))) := rfl
  constructor
  · intro h2
    refine ⟨?_, rfl, stableSortB_perm _ l, ?_⟩
    · rw [hsnd, albums_filter_key _ hnd key l hl, if_pos h2]
    · intro t htl hcontra
      rw [hfst] at hcontra
      have hfn : t.filename ∈
          albumTrackFilenames (createAlbumResults (processResponses rs).2) := by
        have hmem : (key, l) ∈ (processResponses rs).2 := lookupGroup_mem hl
        have halbum : mkAlbumResult key.1 key.2 l ∈
            createAlbumResults (processResponses rs).2 := by
          unfold createAlbumResults
          refine List.mem_map.mpr ⟨(key, l), ?_, rfl⟩
          exact List.mem_filter.mpr ⟨hmem, by simpa using h2⟩
        unfold albumTrackFilenames
        refine List.mem_bind.mpr ⟨mkAlbumResult key.1 key.2 l, halbum, ?_⟩
        refine List.mem_map.mpr ⟨t, ?_, rfl⟩
        exact (stableSortB_perm _ l).mem_iff.mpr htl
      have hnot := (List.mem_filter.mp hcontra).2
      simp only [decide_eq_true_eq] at hnot
      exact hnot hfn
  · intro h1
    constructor
    · rw [hsnd, albums_filter_key _ hnd key l hl, if_neg (by omega)]
    · intro t htl hfn
      rw [hsnd] at hfn
      have hmem : (key, l) ∈ (processResponses rs).2 := lookupGroup_mem hl
      have htall : t ∈ (processResponses rs).1 := htr (key, l) hmem t htl
      rw [hfst]
      refine List.mem_filter.mpr ⟨htall, ?_⟩
      simpa using hfn

/-- C7 (counterexample): bob's `(bob, music/Album1)` group holds exactly one
track, yet the returned flat track list is EMPTY — the single track is
dropped because its filename coincides with a track of alice's album group
(removal from the flat list is by filename across users), refuting the claim
that a single-track group always contributes its track to the flat list. -/
theorem C7_album_grouping_counterexample :
    (lookupGroup (processResponses demoResponses).2 ("bob", "music/Album1")).map
      List.length = some 1 ∧
    (processSearchResponses demoResponses).1 = [] ∧
    ((processSearchResponses demoResponses).2.map (fun a => a.username)) =
      ["alice"] := by
  refine ⟨by decide, by decide, by decide⟩

/-- Witness for `C7_album_grouping` at alice's two-track group. -/
theorem C7_album_grouping_witness :
    lookupGroup (processResponses demoResponses).2 ("alice", "music/Album1") =
      some demoGroupTracks ∧
    ((2 ≤ demoGroupTracks.length →
      ((processSearchResponses demoResponses).2.filter
          (fun a => decide ((a.username, a.albumPath) =
            (("alice", "music/Album1") : String × String))) =
        [mkAlbumResult ("alice", "music/Album1").1 ("alice", "music/Album1").2
          demoGroupTracks]) ∧
      (mkAlbumResult ("alice", "music/Album1").1 ("alice", "music/Album1").2
        demoGroupTracks).trackCount = demoGroupTracks.length ∧
      List.Perm (mkAlbumResult ("alice", "music/Album1").1
        ("alice", "music/Album1").2 demoGroupTracks).tracks demoGroupTracks ∧
      (∀ t ∈ demoGroupTracks, t ∉ (processSearchResponses demoResponses).1)) ∧
    (demoGroupTracks.length = 1 →
      ((processSearchResponses demoResponses).2.filter
          (fun a => decide ((a.username, a.albumPath) =
            (("alice", "music/Album1") : String × String))) = []) ∧
      (∀ t ∈ demoGroupTracks,
        t.filename ∉ albumTrackFilenames (processSearchResponses demoResponses).2 →
        t ∈ (processSearchResponses demoResponses).1))) :=
  ⟨by decide,
    C7_album_grouping demoResponses ("alice", "music/Album1") demoGroupTracks
      (by decide)⟩

/-- C5: when the playlist's name is already in the syncing set,
`sync_playlist` returns immediately with an all-zero-counts result whose
errors list is the (non-empty) duplicate-sync message, performs no pipeline
step (empty effect trace), and leaves the service state — including the
syncing set — exactly unchanged. -/
theorem C5_duplicate_sync_rejected (env : SyncEnv) (st : ServiceState)
    (p : SpotifyPlaylist) (dm : Bool) (h : p.name ∈ st.syncingPlaylists) :
    syncPlaylist env st p dm =
      (st,
       { playlistName := p.name, totalTracks := 0, matchedTracks := 0,
         syncedTracks := 0, downloadedTracks := 0, failedTracks := 0,
         errors := ["Sync already in progress for playlist: " ++ p.name],
         wishlistAddedCount := 0 },
       []) := by
  unfold syncPlaylist
  rw [if_pos h]
  rfl

/-- Witness for `C5_duplicate_sync_rejected`: playlist P is already in the
syncing set. -/
theorem C5_duplicate_sync_rejected_witness :
    ("P" : String) ∈ (ServiceState.mk [] ["P"] false).syncingPlaylists ∧
    syncPlaylist demoSyncEnv (ServiceState.mk [] ["P"] false)
        (SpotifyPlaylist.mk "pid" "P" []) false =
      (ServiceState.mk [] ["P"] false,
       { playlistName := "P", totalTracks := 0, matchedTracks := 0,
         syncedTracks := 0, downloadedTracks := 0, failedTracks := 0,
         errors := ["Sync already in progress for playlist: " ++ "P"],
         wishlistAddedCount := 0 },
       []) :=
  ⟨by decide,
    C5_duplicate_sync_rejected demoSyncEnv (ServiceState.mk [] ["P"] false)
      (SpotifyPlaylist.mk "pid" "P" []) false (by decide)⟩

/-- C10: every `sync_playlist` invocation that passes the duplicate-sync
check leaves a state in which the playlist's name is in neither the syncing
set nor the progress-callback map — the `finally:` block runs on every exit
path (normal completion, empty playlist, every cancellation return, and the
exception handler), so a later sync of the same playlist is never rejected
as already in progress. -/
theorem C10_state_cleanup (env : SyncEnv) (st : ServiceState)
    (p : SpotifyPlaylist) (dm : Bool) (h : p.name ∉ st.syncingPlaylists) :
    p.name ∉ (syncPlaylist env st p dm).1.syncingPlaylists ∧
    p.name ∉ (syncPlaylist env st p dm).1.progressCallbacks := by
  unfold syncPlaylist
  rw [if_neg h]
  constructor <;> simp [List.mem_filter]

/-- Witness for `C10_state_cleanup`: a service holding a progress callback
for P but not syncing it; after the call P is in neither set. -/
theorem C10_state_cleanup_witness :
    ("P" : String) ∉ (ServiceState.mk ["P"] [] false).syncingPlaylists ∧
    ("P" : String) ∉ (syncPlaylist demoSyncEnv (ServiceState.mk ["P"] [] false)
      (SpotifyPlaylist.mk "pid" "P" []) false).1.syncingPlaylists ∧
    ("P" : String) ∉ (syncPlaylist demoSyncEnv (ServiceState.mk ["P"] [] false)
      (SpotifyPlaylist.mk "pid" "P" []) false).1.progressCallbacks :=
  ⟨by decide,
    (C10_state_cleanup demoSyncEnv (ServiceState.mk ["P"] [] false)
      (SpotifyPlaylist.mk "pid" "P" []) false (by decide)).1,
    (C10_state_cleanup demoSyncEnv (ServiceState.mk ["P"] [] false)
      (SpotifyPlaylist.mk "pid" "P" []) false (by decide)).2⟩

/-- C3: `cancel_sync` does set the `_cancelled` flag, but then raises
`AttributeError` on every call — `self.is_syncing = False` assigns to the
read-only `is_syncing` property (declared with `@property` and no setter at
src/services/sync_service.py lines 82-85) — contradicting the claim that it
returns without raising.  The abort behaviour the claim describes does hold:
a sync that observes the flag at the first coarse check, or at the first
per-track boundary, returns the zero-counts result with errors exactly
`["Sync cancelled"]`. -/
theorem C3_cancel_sync_raises :
    (∀ st : ServiceState,
      (cancelSync st).1.cancelled = true ∧
      (cancelSync st).2 = some (.attributeError
        "property is_syncing of PlaylistSyncService object has no setter")) ∧
    (∀ (env : SyncEnv) (st : ServiceState) (p : SpotifyPlaylist) (dm : Bool),
      p.name ∉ st.syncingPlaylists → env.flagAt 0 = true →
      (syncPlaylist env st p dm).2.1 =
        createErrorResult p.name ["Sync cancelled"]) ∧
    (∀ (env : SyncEnv) (st : ServiceState) (p : SpotifyPlaylist) (dm : Bool)
      (t : SpotifyTrack) (ts : List SpotifyTrack),
      p.name ∉ st.syncingPlaylists → p.tracks = t :: ts →
      env.flagAt 0 = false → env.flagAt 1 = false → env.flagAt 2 = true →
      (syncPlaylist env st p dm).2.1 =
        createErrorResult p.name ["Sync cancelled"]) := by
  refine ⟨fun st => ⟨rfl, rfl⟩, ?_, ?_⟩
  · intro env st p dm h hf
    unfold syncPlaylist
    rw [if_neg h]
    show (syncBody env p dm).1 = _
    unfold syncBody
    rw [if_pos hf]
  · intro env st p dm t ts h hp h0 h1 h2
    unfold syncPlaylist
    rw [if_neg h]
    show (syncBody env p dm).1 = _
    unfold syncBody
    rw [if_neg (by rw [h0]; exact Bool.false_ne_true),
      if_neg (by rw [hp]; exact List.cons_ne_nil t ts),
      if_neg (by rw [h1]; exact Bool.false_ne_true), hp]
    have hml : matchLoop env 2 (t :: ts) = (none, 3, []) := by
      unfold matchLoop
      rw [if_pos h2]
    rw [hml]

/-- Witness for `C3_cancel_sync_raises`: the raise on a concrete state, and
both abort points on concrete playlists. -/
theorem C3_cancel_sync_raises_witness :
    ((cancelSync (ServiceState.mk [] [] false)).1.cancelled = true ∧
      (cancelSync (ServiceState.mk [] [] false)).2 = some (.attributeError
        "property is_syncing of PlaylistSyncService object has no setter")) ∧
    (syncPlaylist demoCancelEnv0 (ServiceState.mk [] [] false)
        (SpotifyPlaylist.mk "pid" "P" []) false).2.1 =
      createErrorResult "P" ["Sync cancelled"] ∧
    (syncPlaylist demoCancelEnv2 (ServiceState.mk [] [] false)
        (SpotifyPlaylist.mk "pid" "P"
          [SpotifyTrack.mk "t1" "Song" ["Artist"]]) false).2.1 =
      createErrorResult "P" ["Sync cancelled"] :=
  ⟨C3_cancel_sync_raises.1 (ServiceState.mk [] [] false),
   C3_cancel_sync_raises.2.1 demoCancelEnv0 (ServiceState.mk [] [] false)
     (SpotifyPlaylist.mk "pid" "P" []) false (by decide) rfl,
   C3_cancel_sync_raises.2.2 demoCancelEnv2 (ServiceState.mk [] [] false)
     (SpotifyPlaylist.mk "pid" "P" [SpotifyTrack.mk "t1" "Song" ["Artist"]])
     false (SpotifyTrack.mk "t1" "Song" ["Artist"]) [] (by decide) rfl rfl
     rfl rfl⟩

lemma scanFiles_find_some (env : MediaEnv) (n st : String) (fs : List FSFile)
    (f : FSFile) (hf : fs.find? (fsHit st) = some f)
    (hres : ¬ (env.clientPresent = true ∧ env.hasGetTrackByFilename = true) ∨
      env.getTrackByFilename f.name = none) :
    scanFiles env n st fs =
      some (.fsPlaceholder ("fs_" ++ toString f.inode) n f.pathStr) := by
  induction fs with
  | nil => simp [List.find?] at hf
  | cons g gs ih =>
    by_cases hg : fsHit st g = true
    · rw [List.find?_cons_of_pos _ hg] at hf
      injection hf with hf
      subst hf
      unfold scanFiles
      rw [if_pos hg]
      rcases hres with hnc | hget
      · rw [if_neg hnc]
      · by_cases hc : env.clientPresent = true ∧ env.hasGetTrackByFilename = true
        · rw [if_pos hc, hget]
        · rw [if_neg hc]
    · rw [List.find?_cons_of_neg _ hg] at hf
      unfold scanFiles
      rw [if_neg hg]
      exact ih hf

lemma dbLoop_all_miss (env : MediaEnv) (title : String) (as : List String)
    (h : ∀ a ∈ as, (env.checkTrackExists title a 0.7 env.serverType).1 = none) :
    dbLoop env title as = (none, 0) := by
  induction as with
  | nil => rfl
  | cons a rest ih =>
    unfold dbLoop
    by_cases hc : env.cancelled = true
    · rw [if_pos hc]
    · rw [if_neg hc]
      simp only [h a (List.mem_cons_self a rest)]
      exact ih fun b hb => h b (List.mem_cons_of_mem a hb)

/-- C1: the resolver tries tier 1 (remote metadata API), then tier 2
(filesystem), then tier 3 (catalog database), in that order.  A tier-1 hit
returns the server track at confidence 1.0 and preempts the later tiers; a
tier-2 filename hit that the adapter cannot resolve to a real server id
yields the synthetic placeholder (whose `is_file_match` is true) and the
whole resolution returns it at confidence exactly 0.95; a tier-3 hit at
`check_track_exists` threshold 0.7 returns the catalog match with its
confidence; and when all three tiers miss the resolver returns
`(None, 0.0)`. -/
theorem C1_three_tier_resolver :
    (∀ (env : MediaEnv) (tr : SpotifyTrack) (a : String) (rest : List String)
        (m : ServerTrack),
      env.serverType = "jellyfin" → env.clientPresent = true →
      env.supportsMetadataSearch = true → env.cancelled = false →
      tr.artists = a :: rest → env.metadataSearch tr.name a = some m →
      findTrackInMediaServer env tr = (some (.server m), 1.0)) ∧
    (∀ (env : MediaEnv) (tr : SpotifyTrack) (f : ResolvedTrack),
      tier1Probe env tr = none → checkFilesystem env tr = some f →
      findTrackInMediaServer env tr = (some f, 0.95)) ∧
    (∀ (env : MediaEnv) (tr : SpotifyTrack) (a : String) (f : FSFile),
      env.transferDirExists = true →
      ¬ ((((pySafeChars tr.name).map Char.toLower).asString).length < 3) →
      tr.artists = [a] →
      pyStrip (pySafeChars a).asString ≠ "" →
      (env.fsWalk a).find?
        (fsHit (((pySafeChars tr.name).map Char.toLower).asString)) = some f →
      (¬ (env.clientPresent = true ∧ env.hasGetTrackByFilename = true) ∨
        env.getTrackByFilename f.name = none) →
      checkFilesystem env tr =
        some (.fsPlaceholder ("fs_" ++ toString f.inode) tr.name f.pathStr) ∧
      (ResolvedTrack.fsPlaceholder ("fs_" ++ toString f.inode) tr.name
        f.pathStr).isFileMatch = true) ∧
    (∀ (env : MediaEnv) (tr : SpotifyTrack) (a : String) (dbt : DbTrack) (c : ℚ),
      tier1Probe env tr = none → checkFilesystem env tr = none →
      env.clientPresent = true → env.isConnected = true →
      env.cancelled = false → env.serverType = "jellyfin" →
      tr.artists = [a] →
      env.checkTrackExists tr.name a 0.7 env.serverType = (some dbt, c) →
      c ≥ 0.7 →
      findTrackInMediaServer env tr = (some (.fromDb dbt.id dbt.title), c)) ∧
    (∀ (env : MediaEnv) (tr : SpotifyTrack),
      tier1Probe env tr = none → checkFilesystem env tr = none →
      (∀ a ∈ tr.artists,
        (env.checkTrackExists tr.name a 0.7 env.serverType).1 = none) →
      findTrackInMediaServer env tr = (none, 0.0)) := by
  refine ⟨?_, ?_, ?_, ?_, ?_⟩
  · intro env tr a rest m hst hcp hsup hcan hart hmeta
    have ht1 : tier1Probe env tr = some m := by
      unfold tier1Probe
      rw [if_pos ⟨hst, hcp⟩]
      unfold checkJellyfinApi
      rw [if_neg (by simp [hsup]), hart]
      unfold jellyfinApiLoop
      rw [if_neg (by simp [hcan]), hmeta]
    unfold findTrackInMediaServer
    rw [ht1]
  · intro env tr f h1 h2
    unfold findTrackInMediaServer
    rw [h1, h2]
  · intro env tr a f htd hlen hart hsa hfind hres
    refine ⟨?_, rfl⟩
    unfold checkFilesystem
    rw [if_neg (by simp [htd])]
    simp only []
    rw [if_neg hlen, hart]
    unfold fsArtistLoop
    simp only []
    rw [if_neg hsa, scanFiles_find_some env tr.name _ _ f hfind hres]
  · intro env tr a dbt c h1 h2 hcp hic hcan hst hart hcte hge
    unfold findTrackInMediaServer
    rw [h1, h2, if_neg (by simp [hcp, hic]), hart]
    unfold dbLoop
    rw [if_neg (by simp [hcan])]
    simp only [hcte]
    rw [if_pos hge, if_pos hst]
  · intro env tr h1 h2 h3
    unfold findTrackInMediaServer
    rw [h1, h2]
    by_cases hc : ¬ env.clientPresent ∨ ¬ env.isConnected
    · rw [if_pos hc]
    · rw [if_neg hc, dbLoop_all_miss env tr.name tr.artists h3]
      simp only [Prod.mk.injEq, true_and]
      norm_num

/-- Witness for `C1_three_tier_resolver`: all four behaviours on concrete
environments — tier-1 hit, tier-2 placeholder at 0.95 (with
`is_file_match`), tier-3 catalog hit at 0.8, and the all-miss
`(none, 0.0)`. -/
theorem C1_three_tier_resolver_witness :
    findTrackInMediaServer envT1 demoTr = (some (.server demoServerTrack), 1.0) ∧
    findTrackInMediaServer envT2 demoTr =
      (some (.fsPlaceholder ("fs_" ++ toString demoFSFile.inode) demoTr.name
        demoFSFile.pathStr), 0.95) ∧
    (checkFilesystem envT2 demoTr =
      some (.fsPlaceholder ("fs_" ++ toString demoFSFile.inode) demoTr.name
        demoFSFile.pathStr) ∧
     (ResolvedTrack.fsPlaceholder ("fs_" ++ toString demoFSFile.inode)
        demoTr.name demoFSFile.pathStr).isFileMatch = true) ∧
    findTrackInMediaServer envT3 demoTr =
      (some (.fromDb demoDbTrack.id demoDbTrack.title), 0.8) ∧
    findTrackInMediaServer demoMediaEnv demoTr = (none, 0.0) :=
  ⟨C1_three_tier_resolver.1 envT1 demoTr "Artist" [] demoServerTrack rfl rfl
     rfl rfl rfl rfl,
   C1_three_tier_resolver.2.1 envT2 demoTr _ rfl rfl,
   C1_three_tier_resolver.2.2.1 envT2 demoTr "Artist" demoFSFile rfl
     (by decide) rfl (by decide) rfl (Or.inl (by decide)),
   C1_three_tier_resolver.2.2.2.1 envT3 demoTr "Artist" demoDbTrack 0.8 rfl
     rfl rfl rfl rfl rfl rfl rfl (by norm_num),
   C1_three_tier_resolver.2.2.2.2 demoMediaEnv demoTr rfl rfl fun a _ => rfl⟩

end SoulSync
